import Mathlib

/-!
The ocean.one exchange: snapshot processing.

A shallow embedding of `exchange.go`: the pair policy (`validateQuoteBasePair`),
the memo codec (`decryptOrderAction`), the per-event decision procedure
(`processSnapshot`) and the checkpointed page loop of `PollMixinNetwork`.

Collaborators that live outside `exchange.go` (configuration, persistence,
the base64 and msgpack decoders) are fields of `Exchange`; persistence is a
state machine over an arbitrary state type `σ`.  Every run records the trace
of effects it performed, so that "which call was issued, with which
arguments" is a statement about a list.
-/

namespace OceanOne

/-! ## Constants and basic types -/

/-- Asset id of Bitcoin, `BitcoinAssetId` in the source. -/
def BitcoinAssetId : String := "c6d0c728-2624-429b-8e0d-d9d19b6592fa"

/-- Asset id of USDT, `USDTAssetId` in the source. -/
def USDTAssetId : String := "815b0b1a-2764-3736-8faa-42d694fa620a"

/-- Modelled from the spec: `engine.PageSideAsk` is declared in the `engine`
package, which is not under src/; the side indicator of an ask. -/
def PageSideAsk : String := "ASK"

/-- Modelled from the spec: `engine.PageSideBid` is declared in the `engine`
package, which is not under src/; the side indicator of a bid. -/
def PageSideBid : String := "BID"

/-- A point in time (`time.Time`), as a count of nanoseconds. -/
abbrev Time := Int

/-- A Go `error` value that is not nil. -/
abbrev Error := String

/-- One octet. -/
abbrev Byte := Fin 256

/-! ## Decimal numbers (`number.Decimal`) -/

/-- Modelled from the spec: the decimal library `number` is not under src/.
A decimal is its exact value ("exact decimal arithmetic, never binary
floating point"). -/
abbrev Decimal := ℚ

/-- Value of one decimal digit character. -/
def digitValue (c : Char) : Option Nat :=
  if '0' ≤ c ∧ c ≤ '9' then some (c.toNat - '0'.toNat) else none

/-- Reads a run of decimal digits, most significant first, onto `acc`. -/
def readDigits : List Char → Nat → Option Nat
  | [], acc => some acc
  | c :: cs, acc =>
    match digitValue c with
    | none => none
    | some d => readDigits cs (acc * 10 + d)

/-- Reads a signed integer numeral: an optional sign and at least one digit. -/
def readInteger : List Char → Option Int
  | [] => none
  | '-' :: cs => if cs = [] then none else (readDigits cs 0).map (fun n => - (n : Int))
  | '+' :: cs => if cs = [] then none else (readDigits cs 0).map (fun n => (n : Int))
  | cs => (readDigits cs 0).map (fun n => (n : Int))

/-- Drops the zeros at the end of a digit string. -/
def trimZeros (cs : List Char) : List Char :=
  (cs.reverse.dropWhile (fun c => c == '0')).reverse

/-- Reads a decimal numeral with at most one point and no exponent part as
a pair `(m, k)` standing for `m / 10 ^ k`. -/
def readPlain (cs : List Char) : Option (Int × Nat) :=
  match cs.splitOn '.' with
  | [whole] => (readInteger whole).map (fun m => (m, 0))
  | [whole, frac] =>
    let digits := trimZeros frac
    (readInteger (whole ++ digits)).map (fun m => (m, digits.length))
  | _ => none

/-- Reads a decimal numeral, with an optional exponent part after `e` or `E`,
as a pair `(m, k)` standing for `m / 10 ^ k`. -/
def readDecimal (cs : List Char) : Option (Int × Nat) :=
  let mantissa := cs.takeWhile (fun c => !(c == 'e' || c == 'E'))
  match cs.dropWhile (fun c => !(c == 'e' || c == 'E')) with
  | [] => readPlain mantissa
  | _ :: expo =>
    match readInteger expo, readPlain mantissa with
    | some e, some (m, k) =>
      if (k : Int) ≤ e then some (m * 10 ^ (e - k).toNat, 0) else some (m, ((k : Int) - e).toNat)
    | _, _ => none

/-- Modelled from the spec: `number.FromString` (package `number` is not under
src/) reads a decimal string as its exact value.  The source discards the
parse error, so a string that is not a decimal numeral reads as zero. -/
def FromString (source : String) : Decimal :=
  match readDecimal source.toList with
  | some (m, k) => (m : ℚ) / (10 : ℚ) ^ k
  | none => 0

/-- Modelled from the spec: `Decimal.RoundFloor(places)` (package `number` is
not under src/) is the exact floor to `places` fractional decimal digits. -/
def Decimal.RoundFloor (a : Decimal) (places : Nat) : Decimal :=
  ((⌊a * (10 : ℚ) ^ places⌋ : ℤ) : ℚ) / (10 : ℚ) ^ places

/-- Modelled from the spec: `Decimal.Exhausted()` (package `number` is not
under src/) holds of a value that is "zero or otherwise exhausted (a decimal
value that rounds to nothing at the working precision)": its floor to 8
fractional digits is zero or less. -/
def Decimal.Exhausted (a : Decimal) : Bool := decide (a.RoundFloor 8 ≤ 0)

/-- Modelled from the spec: `Decimal.Div` (package `number` is not under src/)
is the quotient `a ÷ b`; dividing by zero does not return (`none`). -/
def Decimal.Div (a b : Decimal) : Option Decimal :=
  if b = 0 then none else some (a / b)

/-! ## UUIDs (`uuid.UUID`) -/

/-- A UUID is an array of 16 bytes. -/
structure UUID where
  bytes : List Byte
  size : bytes.length = 16
deriving DecidableEq

/-- The nil UUID `uuid.Nil`: all 16 bytes are zero. -/
def UUID.Nil : UUID := ⟨List.replicate 16 0, by decide⟩

/-- Lower-case hexadecimal digit of a value below 16. -/
def hexDigit (n : Nat) : Char :=
  ['0', '1', '2', '3', '4', '5', '6', '7', '8', '9', 'a', 'b', 'c', 'd', 'e', 'f'].getD n '0'

/-- Two hexadecimal digits per byte, high nibble first (`hex.Encode`). -/
def hexEncode : List Byte → List Char
  | [] => []
  | b :: bs => hexDigit (b.val / 16) :: hexDigit (b.val % 16) :: hexEncode bs

/-- Canonical text of a UUID, `xxxxxxxx-xxxx-xxxx-xxxx-xxxxxxxxxxxx`
(`UUID.String()`). -/
def UUID.String (u : UUID) : String :=
  String.mk
    (hexEncode (u.bytes.take 4) ++ '-' ::
     hexEncode ((u.bytes.drop 4).take 2) ++ '-' ::
     hexEncode ((u.bytes.drop 6).take 2) ++ '-' ::
     hexEncode ((u.bytes.drop 8).take 2) ++ '-' ::
     hexEncode (u.bytes.drop 10))

/-! ## Records of the source -/

/-- The nested `Asset` record of a snapshot. -/
structure SnapshotAsset where
  AssetId : String
deriving DecidableEq, Repr

/-- One observed transfer, `Snapshot` in the source. -/
structure Snapshot where
  SnapshotId : String
  Amount : String
  Asset : SnapshotAsset
  CreatedAt : Time
  TraceId : String
  UserId : String
  OpponentId : String
  Data : String
deriving DecidableEq, Repr

/-- The instruction carried by a memo, `OrderAction` in the source. -/
structure OrderAction where
  S : String
  A : UUID
  P : String
  O : UUID
deriving DecidableEq

/-! ## Effects and runs -/

/-- What a run of `processSnapshot` does that is visible from outside: the
three collaborator calls, and two internal events (the decoding of the memo
and the bid-side division) that are recorded to make statements about them
possible. -/
inductive Effect where
  | decrypt (data : String)
  | refund (s : Snapshot)
  | cancel (orderId : String)
  | create (userId traceId side quote base : String) (amount price : Decimal) (createdAt : Time)
  | div (amount price : Decimal)
deriving DecidableEq

/-- Whether the effect is one of the three dispatched calls. -/
def Effect.isCall : Effect → Bool
  | .refund _ => true
  | .cancel _ => true
  | .create _ _ _ _ _ _ _ _ => true
  | _ => false

/-- Whether the effect is a refund. -/
def Effect.isRefund : Effect → Bool
  | .refund _ => true
  | _ => false

/-- Whether the effect is a cancel-order call. -/
def Effect.isCancel : Effect → Bool
  | .cancel _ => true
  | _ => false

/-- Whether the effect is a create-order call. -/
def Effect.isCreate : Effect → Bool
  | .create _ _ _ _ _ _ _ _ => true
  | _ => false

/-- Whether the effect is the decoding of a memo. -/
def Effect.isDecrypt : Effect → Bool
  | .decrypt _ => true
  | _ => false

/-- How a function of the source that returns `error` ends: `nil`, a non-nil
error, or a run-time panic that never returns. -/
inductive Ret where
  | ok
  | error (e : Error)
  | panic
deriving DecidableEq, Repr

/-- The `error` result of a collaborator as a `Ret`. -/
def Ret.ofError : Option Error → Ret
  | none => Ret.ok
  | some e => Ret.error e

/-- A finished run: the persistence state it leaves, the effects it
performed in order, and how it ended. -/
structure Run (σ : Type) where
  state : σ
  trace : List Effect
  ret : Ret

/-- The dispatched calls of a run, in order. -/
def Run.calls {σ : Type} (r : Run σ) : List Effect := r.trace.filter Effect.isCall

/-- The exchange together with the collaborators `exchange.go` calls.
`codec` is the receiver's msgpack handle applied to a payload
(`decoder.Decode(&action)`), `DecodeString` is `base64.StdEncoding.DecodeString`,
`ClientId` is `config.ClientId`, and `CancelOrder`, `CreateOrder` are the
functions of package `persistence` acting on the persistence state. -/
structure Exchange (σ : Type) where
  codec : List Byte → Option OrderAction
  DecodeString : String → Option (List Byte)
  ClientId : String
  CancelOrder : σ → String → σ × Option Error
  CreateOrder : σ → String → String → String → String → String → Decimal → Decimal → Time →
    σ × Option Error

/-! ## The functions of `exchange.go` -/

/-- Pair policy, `validateQuoteBasePair` in the source. -/
def validateQuoteBasePair (quote base : String) : Bool :=
  if quote ≠ BitcoinAssetId ∧ quote ≠ USDTAssetId then false
  else if quote = BitcoinAssetId ∧ base = USDTAssetId then false
  else true

/-- The refund stub, `refund` in the source: it returns `nil` and leaves the
persistence state alone.  The call is recorded in the trace. -/
def Exchange.refund {σ : Type} (_ex : Exchange σ) (st : σ) (s : Snapshot) : Run σ :=
  ⟨st, [Effect.refund s], Ret.ok⟩

/-- Memo codec, `decryptOrderAction` in the source: base64 first, then the
msgpack record; either failure gives `nil` (`none`). -/
def Exchange.decryptOrderAction {σ : Type} (ex : Exchange σ) (data : String) : Option OrderAction :=
  match ex.DecodeString data with
  | none => none
  | some payload =>
    match ex.codec payload with
    | none => none
    | some action => some action

/-- The call `persistence.CancelOrder(ctx, orderId)` as a run. -/
def Exchange.cancelOrder {σ : Type} (ex : Exchange σ) (st : σ) (orderId : String) : Run σ :=
  ⟨(ex.CancelOrder st orderId).1, [Effect.cancel orderId], Ret.ofError (ex.CancelOrder st orderId).2⟩

/-- The call `persistence.CreateOrder(ctx, userId, traceId, side, quote, base,
amount, price, createdAt)` as a run. -/
def Exchange.createOrder {σ : Type} (ex : Exchange σ) (st : σ)
    (userId traceId side quote base : String) (amount price : Decimal) (createdAt : Time) : Run σ :=
  ⟨(ex.CreateOrder st userId traceId side quote base amount price createdAt).1,
   [Effect.create userId traceId side quote base amount price createdAt],
   Ret.ofError (ex.CreateOrder st userId traceId side quote base amount price createdAt).2⟩

/-- A run preceded by effects that happened before it. -/
def Run.after {σ : Type} (pre : List Effect) (r : Run σ) : Run σ :=
  ⟨r.state, pre ++ r.trace, r.ret⟩

/-- The tail of `processSnapshot` from the pair check on (source lines
121 to 125), once `quote`, `base` and `amount` are settled. -/
def Exchange.placeOrder {σ : Type} (ex : Exchange σ) (st : σ) (s : Snapshot) (action : OrderAction)
    (quote base : String) (amount price : Decimal) : Run σ :=
  if !validateQuoteBasePair quote base then ex.refund st s
  else ex.createOrder st s.OpponentId s.TraceId action.S quote base amount price s.CreatedAt

/-- The per-event decision procedure, `processSnapshot` in the source. -/
def Exchange.processSnapshot {σ : Type} (ex : Exchange σ) (st : σ) (s : Snapshot) : Run σ :=
  if s.UserId ≠ ex.ClientId then ⟨st, [], Ret.ok⟩
  else if s.OpponentId = "" ∨ s.TraceId = "" then ⟨st, [], Ret.ok⟩
  else if (FromString s.Amount).Exhausted then ⟨st, [], Ret.ok⟩
  else
    match ex.decryptOrderAction s.Data with
    | none => (ex.refund st s).after [Effect.decrypt s.Data]
    | some action =>
      if action.A.String = s.Asset.AssetId then (ex.refund st s).after [Effect.decrypt s.Data]
      else if action.O.String ≠ UUID.Nil.String then
        (ex.cancelOrder st action.O.String).after [Effect.decrypt s.Data]
      else
        let amount := (FromString s.Amount).RoundFloor 8
        let price := (FromString action.P).RoundFloor 8
        if price.Exhausted then (ex.refund st s).after [Effect.decrypt s.Data]
        else if action.S = PageSideAsk then
          (ex.placeOrder st s action action.A.String s.Asset.AssetId amount price).after
            [Effect.decrypt s.Data]
        else if action.S = PageSideBid then
          match amount.Div price with
          | none => ⟨st, [Effect.decrypt s.Data, Effect.div amount price], Ret.panic⟩
          | some quantity =>
            (ex.placeOrder st s action s.Asset.AssetId action.A.String quantity price).after
              [Effect.decrypt s.Data, Effect.div amount price]
        else (ex.refund st s).after [Effect.decrypt s.Data]

/-- The state of the page loop of `PollMixinNetwork`: the persistence state,
the checkpoint, the effects so far, the snapshots handed to
`processSnapshot` so far, and whether a panic ended the program. -/
structure PageRun (σ : Type) where
  state : σ
  checkpoint : Time
  trace : List Effect
  processed : List Snapshot
  crashed : Bool

/-- The inner loop of `PollMixinNetwork` (source lines 68 to 76): process the
snapshots of a page in order, stop at the first one that fails, and move the
checkpoint to the creation time of each one that succeeds. -/
def Exchange.processPage {σ : Type} (ex : Exchange σ) (st : σ) (checkpoint : Time) :
    List Snapshot → PageRun σ
  | [] => ⟨st, checkpoint, [], [], false⟩
  | s :: rest =>
    let r := ex.processSnapshot st s
    match r.ret with
    | Ret.ok =>
      let p := ex.processPage r.state s.CreatedAt rest
      ⟨p.state, p.checkpoint, r.trace ++ p.trace, s :: p.processed, p.crashed⟩
    | Ret.error _ => ⟨r.state, checkpoint, r.trace, [s], false⟩
    | Ret.panic => ⟨r.state, checkpoint, r.trace, [s], true⟩

/-- The state of the outer loop of `PollMixinNetwork` between two
iterations. -/
structure PollState (σ : Type) where
  state : σ
  checkpoint : Time
  trace : List Effect
  sleeps : Nat
  crashed : Bool

/-- One iteration of the outer loop of `PollMixinNetwork` (source lines 62 to
80), given what `requestMixinNetwork` returned for the current checkpoint:
a failed fetch sleeps and keeps the checkpoint; a fetched page is processed
by the inner loop, and a page shorter than `limit` is followed by a sleep. -/
def Exchange.pollIteration {σ : Type} (ex : Exchange σ) (limit : Int)
    (fetched : Except Error (List Snapshot)) (ps : PollState σ) : PollState σ :=
  if ps.crashed then ps
  else
    match fetched with
    | Except.error _ => ⟨ps.state, ps.checkpoint, ps.trace, ps.sleeps + 1, false⟩
    | Except.ok snapshots =>
      let p := ex.processPage ps.state ps.checkpoint snapshots
      ⟨p.state, p.checkpoint, ps.trace ++ p.trace,
       if p.crashed then ps.sleeps
       else if (snapshots.length : Int) < limit then ps.sleeps + 1 else ps.sleeps,
       p.crashed⟩

/-- The first `n` iterations of the outer loop of `PollMixinNetwork`, started
at the checkpoint read from persistence, where `request i checkpoint limit`
is what `requestMixinNetwork` returns in iteration `i`.  The limit is 500. -/
def Exchange.pollMixinNetwork {σ : Type} (ex : Exchange σ)
    (request : Nat → Time → Int → Except Error (List Snapshot)) (st : σ) (start : Time) :
    Nat → PollState σ
  | 0 => ⟨st, start, [], 0, false⟩
  | n + 1 =>
    let ps := ex.pollMixinNetwork request st start n
    ex.pollIteration 500 (request n ps.checkpoint 500) ps

/-! ## Predicates used in the statements -/

/-- The event passes the guard filters: none of the three early returns of
`processSnapshot` (source lines 85 to 93) is taken. -/
def Exchange.passesGuards {σ : Type} (ex : Exchange σ) (s : Snapshot) : Prop :=
  s.UserId = ex.ClientId ∧ s.OpponentId ≠ "" ∧ s.TraceId ≠ "" ∧
    (FromString s.Amount).Exhausted = false

/-- The persistence state after `processSnapshot` has run on each snapshot of
the list in turn. -/
def Exchange.stateAfter {σ : Type} (ex : Exchange σ) (st : σ) : List Snapshot → σ
  | [] => st
  | s :: rest => ex.stateAfter (ex.processSnapshot st s).state rest

/-- Every snapshot of the list, processed in turn from state `st`, returns
success. -/
def Exchange.allSucceed {σ : Type} (ex : Exchange σ) (st : σ) : List Snapshot → Prop
  | [] => True
  | s :: rest =>
    (ex.processSnapshot st s).ret = Ret.ok ∧ ex.allSucceed (ex.processSnapshot st s).state rest

/-- The trading intent of a call: its kind and, for a create-order, the side,
quote, base, quantity and price, without the sender, the trace id and the
time. -/
inductive Intent where
  | refund
  | cancel (orderId : String)
  | create (side quote base : String) (amount price : Decimal)
deriving DecidableEq

/-- The intent an effect carries; `none` for an effect that is not a call. -/
def Effect.intent : Effect → Option Intent
  | .refund _ => some Intent.refund
  | .cancel orderId => some (Intent.cancel orderId)
  | .create _ _ side quote base amount price _ =>
    some (Intent.create side quote base amount price)
  | _ => none

/-- The intents of the calls of a run, in order. -/
def Run.intents {σ : Type} (r : Run σ) : List Intent := r.trace.filterMap Effect.intent

/-! ## Sample inputs -/

/-- The UUID whose text is `USDTAssetId`. -/
def usdtUUID : UUID :=
  ⟨[0x81, 0x5b, 0x0b, 0x1a, 0x27, 0x64, 0x37, 0x36, 0x8f, 0xaa, 0x42, 0xd6, 0x94, 0xfa, 0x62, 0x0a],
   by decide⟩

/-- The UUID whose text is `BitcoinAssetId`. -/
def bitcoinUUID : UUID :=
  ⟨[0xc6, 0xd0, 0xc7, 0x28, 0x26, 0x24, 0x42, 0x9b, 0x8e, 0x0d, 0xd9, 0xd1, 0x9b, 0x65, 0x92, 0xfa],
   by decide⟩

/-- The UUID of a third asset, which is not an anchor. -/
def otherUUID : UUID :=
  ⟨[0x43, 0xd6, 0x1d, 0xcd, 0xe4, 0x13, 0x45, 0x0d, 0x80, 0xb8, 0x10, 0x1d, 0x5e, 0x90, 0x33, 0x57],
   by decide⟩

/-- Asset id of the third asset. -/
def otherAssetId : String := "43d61dcd-e413-450d-80b8-101d5e903357"

/-- The id of an order. -/
def orderUUID : UUID :=
  ⟨[0x0a, 0x1b, 0x2c, 0x3d, 0x4e, 0x5f, 0x46, 0x07, 0x98, 0x19, 0xaa, 0xbb, 0xcc, 0xdd, 0xee, 0xff],
   by decide⟩

/-- Text of `orderUUID`. -/
def orderId : String := "0a1b2c3d-4e5f-4607-9819-aabbccddeeff"

/-- An ask that offers the deposit for USDT at 100.00000001. -/
def askAction : OrderAction := ⟨"ASK", usdtUUID, "100.00000001", UUID.Nil⟩

/-- A bid that spends the deposit on Bitcoin at a price of 2. -/
def bidAction : OrderAction := ⟨"BID", bitcoinUUID, "2", UUID.Nil⟩

/-- An instruction that names an order and refers to USDT; its side and price
are not those of a valid order. -/
def cancelAction : OrderAction := ⟨"HOLD", usdtUUID, "0", orderUUID⟩

/-- An instruction with neither ask nor bid as its side. -/
def holdAction : OrderAction := ⟨"HOLD", usdtUUID, "1", UUID.Nil⟩

/-- A sample base64 decoder: it knows five one-byte payloads. -/
def demoDecodeString (data : String) : Option (List Byte) :=
  if data = "AQ==" then some [1]
  else if data = "Ag==" then some [2]
  else if data = "Aw==" then some [3]
  else if data = "BA==" then some [4]
  else if data = "BQ==" then some [5]
  else none

/-- A sample record decoder: it knows four payloads. -/
def demoCodec (payload : List Byte) : Option OrderAction :=
  if payload = [1] then some askAction
  else if payload = [2] then some bidAction
  else if payload = [3] then some cancelAction
  else if payload = [4] then some holdAction
  else none

/-- A sample exchange.  Its persistence state is the list of trace ids of the
orders created; creating an order is idempotent on the trace id and fails
for the trace id "busy"; cancelling fails for the order id "busy". -/
def demoExchange : Exchange (List String) where
  codec := demoCodec
  DecodeString := demoDecodeString
  ClientId := "exchange"
  CancelOrder := fun st id => (st, if id = "busy" then some "store unavailable" else none)
  CreateOrder := fun st _ traceId _ _ _ _ _ _ =>
    if traceId = "busy" then (st, some "store unavailable")
    else if traceId ∈ st then (st, none) else (traceId :: st, none)

/-- A deposit of 1.23456789012 of the third asset with the ask memo. -/
def askSnapshot : Snapshot :=
  ⟨"s1", "1.23456789012", ⟨otherAssetId⟩, 1000, "t1", "exchange", "alice", "AQ=="⟩

/-- A deposit of 0.00000001 USDT with the bid memo. -/
def bidSnapshot : Snapshot :=
  ⟨"s2", "0.00000001", ⟨USDTAssetId⟩, 2000, "t2", "exchange", "bob", "Ag=="⟩

/-- A deposit of 6 USDT with the bid memo. -/
def bidSnapshot6 : Snapshot :=
  ⟨"s6", "6", ⟨USDTAssetId⟩, 2500, "t6", "exchange", "bob", "Ag=="⟩

/-- A deposit of the third asset whose memo names an order. -/
def cancelSnapshot : Snapshot :=
  ⟨"s3", "1", ⟨otherAssetId⟩, 3000, "t3", "exchange", "carol", "Aw=="⟩

/-- A deposit of USDT whose memo names an order and refers to USDT itself. -/
def selfSnapshot : Snapshot :=
  ⟨"s4", "1", ⟨USDTAssetId⟩, 4000, "t4", "exchange", "dave", "Aw=="⟩

/-- A deposit sent to another account. -/
def foreignSnapshot : Snapshot :=
  ⟨"s5", "1", ⟨otherAssetId⟩, 5000, "t5", "somebody", "erin", "AQ=="⟩

/-- A deposit whose order creation fails in `demoExchange`. -/
def busySnapshot : Snapshot :=
  ⟨"s7", "1", ⟨otherAssetId⟩, 7000, "busy", "exchange", "frank", "AQ=="⟩

/-- A deposit whose memo is not base64. -/
def junkSnapshot : Snapshot :=
  ⟨"s8", "1", ⟨otherAssetId⟩, 8000, "t8", "exchange", "grace", "%%%"⟩

/-- A deposit whose memo carries the instruction with side "HOLD". -/
def holdSnapshot : Snapshot :=
  ⟨"s9", "1", ⟨otherAssetId⟩, 9000, "t9", "exchange", "heidi", "BA=="⟩

/-- A page of three snapshots; the order of the second one cannot be
created in `demoExchange`. -/
def demoPage : List Snapshot := [askSnapshot, busySnapshot, holdSnapshot]

/-- A second deposit with the memo, amount and asset of `askSnapshot`, from
another sender, with another trace id, at another time. -/
def askSnapshot2 : Snapshot :=
  ⟨"s10", "1.23456789012", ⟨otherAssetId⟩, 12000, "t10", "exchange", "ivan", "AQ=="⟩

/-- A sample ledger: the first request fails; every later request returns
the snapshots of `demoPage` created after the checkpoint, up to the limit. -/
def demoRequest (i : Nat) (checkpoint : Time) (limit : Int) : Except Error (List Snapshot) :=
  if i = 0 then Except.error "timeout"
  else Except.ok ((demoPage.filter (fun s => decide (checkpoint < s.CreatedAt))).take limit.toNat)

/-- A ledger that answers every request with the page of `askSnapshot` alone,
whatever the checkpoint. -/
def staleRequest (_i : Nat) (_checkpoint : Time) (_limit : Int) : Except Error (List Snapshot) :=
  Except.ok [askSnapshot]

/-! ## Decimals and UUIDs: auxiliary facts -/

theorem roundFloor_pos_iff (a : Decimal) : 0 < a.RoundFloor 8 ↔ 1 / 10 ^ 8 ≤ a := by
  have h10 : (0 : ℚ) < 10 ^ 8 := by norm_num
  unfold Decimal.RoundFloor
  rw [div_le_iff₀ h10, lt_div_iff₀ h10, zero_mul]
  constructor
  · intro h
    have h1 : (1 : ℤ) ≤ ⌊a * 10 ^ 8⌋ := by exact_mod_cast h
    have h2 := Int.le_floor.1 h1
    exact_mod_cast h2
  · intro h
    have h1 : (1 : ℤ) ≤ ⌊a * 10 ^ 8⌋ := Int.le_floor.2 (by exact_mod_cast h)
    exact_mod_cast h1

theorem exhausted_eq_false_iff (a : Decimal) : a.Exhausted = false ↔ 1 / 10 ^ 8 ≤ a := by
  rw [← roundFloor_pos_iff]
  simp [Decimal.Exhausted]

theorem exhausted_eq_true_iff (a : Decimal) : a.Exhausted = true ↔ a < 1 / 10 ^ 8 := by
  rw [← not_le, ← roundFloor_pos_iff]
  simp [Decimal.Exhausted]

theorem div_of_not_exhausted (a b : Decimal) (h : b.Exhausted = false) :
    a.Div b = some (a / b) := by
  have hb : 0 < b := lt_of_lt_of_le (by norm_num) ((exhausted_eq_false_iff b).1 h)
  simp [Decimal.Div, ne_of_gt hb]

theorem hexDigit_inj : ∀ m n : Fin 16, hexDigit m.val = hexDigit n.val → m = n := by decide

theorem hexDigit_eq (m n : Nat) (hm : m < 16) (hn : n < 16) (h : hexDigit m = hexDigit n) :
    m = n :=
  congrArg Fin.val (hexDigit_inj ⟨m, hm⟩ ⟨n, hn⟩ h)

theorem hexEncode_length (l : List Byte) : (hexEncode l).length = 2 * l.length := by
  induction l with
  | nil => rfl
  | cons b bs ih =>
    simp [hexEncode, ih]
    omega

theorem hexEncode_inj : ∀ l m : List Byte, hexEncode l = hexEncode m → l = m
  | [], [], _ => rfl
  | [], _ :: _, h => by simp [hexEncode] at h
  | _ :: _, [], h => by simp [hexEncode] at h
  | b :: bs, c :: cs, h => by
    simp only [hexEncode, List.cons.injEq] at h
    obtain ⟨h1, h2, h3⟩ := h
    have hb := b.isLt
    have hc := c.isLt
    have e1 := hexDigit_eq _ _ (by omega) (by omega) h1
    have e2 := hexDigit_eq _ _ (by omega) (by omega) h2
    have : b = c := Fin.ext (by omega)
    rw [this, hexEncode_inj bs cs h3]

/-- A list of bytes is its five UUID groups put together. -/
theorem uuid_groups (x : List Byte) :
    x = x.take 4 ++ ((x.drop 4).take 2 ++ ((x.drop 6).take 2 ++
      ((x.drop 8).take 2 ++ x.drop 10))) := by
  have a1 : (x.drop 8).take 2 ++ x.drop 10 = x.drop 8 := by
    have := List.take_append_drop 2 (x.drop 8)
    rwa [List.drop_drop] at this
  have a2 : (x.drop 6).take 2 ++ x.drop 8 = x.drop 6 := by
    have := List.take_append_drop 2 (x.drop 6)
    rwa [List.drop_drop] at this
  have a3 : (x.drop 4).take 2 ++ x.drop 6 = x.drop 4 := by
    have := List.take_append_drop 2 (x.drop 4)
    rwa [List.drop_drop] at this
  rw [a1, a2, a3, List.take_append_drop]

/-- The text of a UUID determines the UUID. -/
theorem UUID.String_inj (u v : UUID) (h : u.String = v.String) : u = v := by
  obtain ⟨l, hl⟩ := u
  obtain ⟨m, hm⟩ := v
  have h := congrArg String.data h
  simp only [UUID.String] at h
  obtain ⟨h, h5⟩ := List.append_inj' h (by simp [hexEncode_length, hl, hm])
  obtain ⟨h, h4⟩ := List.append_inj' h (by simp [hexEncode_length, hl, hm])
  obtain ⟨h, h3⟩ := List.append_inj' h (by simp [hexEncode_length, hl, hm])
  obtain ⟨h1, h2⟩ := List.append_inj' h (by simp [hexEncode_length, hl, hm])
  simp only [List.cons.injEq, true_and] at h2 h3 h4 h5
  have e1 := hexEncode_inj _ _ h1
  have e2 := hexEncode_inj _ _ h2
  have e3 := hexEncode_inj _ _ h3
  have e4 := hexEncode_inj _ _ h4
  have e5 := hexEncode_inj _ _ h5
  have : l = m := by
    rw [uuid_groups l, uuid_groups m, e1, e2, e3, e4, e5]
  subst this
  rfl

theorem UUID.String_ne {u v : UUID} (h : u ≠ v) : u.String ≠ v.String :=
  fun e => h (UUID.String_inj u v e)

/-! ## The paths of `processSnapshot` -/

theorem processSnapshot_ignored {σ : Type} (ex : Exchange σ) (st : σ) (s : Snapshot)
    (h : ¬ ex.passesGuards s) : ex.processSnapshot st s = ⟨st, [], Ret.ok⟩ := by
  unfold Exchange.processSnapshot
  by_cases h1 : s.UserId = ex.ClientId
  · by_cases h2 : s.OpponentId = "" ∨ s.TraceId = ""
    · simp [h1, h2]
    · by_cases h3 : (FromString s.Amount).Exhausted = true
      · simp [h1, h2, h3]
      · exfalso
        apply h
        simp only [not_or] at h2
        exact ⟨h1, h2.1, h2.2, by simpa using h3⟩
  · simp [h1]

theorem processSnapshot_undecoded {σ : Type} (ex : Exchange σ) (st : σ) (s : Snapshot)
    (hg : ex.passesGuards s) (hd : ex.decryptOrderAction s.Data = none) :
    ex.processSnapshot st s = ⟨st, [Effect.decrypt s.Data, Effect.refund s], Ret.ok⟩ := by
  obtain ⟨h1, h2, h3, h4⟩ := hg
  simp [Exchange.processSnapshot, h1, h2, h3, h4, hd, Exchange.refund, Run.after]

theorem processSnapshot_selfref {σ : Type} (ex : Exchange σ) (st : σ) (s : Snapshot)
    (a : OrderAction) (hg : ex.passesGuards s) (hd : ex.decryptOrderAction s.Data = some a)
    (hA : a.A.String = s.Asset.AssetId) :
    ex.processSnapshot st s = ⟨st, [Effect.decrypt s.Data, Effect.refund s], Ret.ok⟩ := by
  obtain ⟨h1, h2, h3, h4⟩ := hg
  simp [Exchange.processSnapshot, h1, h2, h3, h4, hd, hA, Exchange.refund, Run.after]

theorem processSnapshot_cancel {σ : Type} (ex : Exchange σ) (st : σ) (s : Snapshot)
    (a : OrderAction) (hg : ex.passesGuards s) (hd : ex.decryptOrderAction s.Data = some a)
    (hA : a.A.String ≠ s.Asset.AssetId) (hO : a.O.String ≠ UUID.Nil.String) :
    ex.processSnapshot st s =
      ⟨(ex.CancelOrder st a.O.String).1, [Effect.decrypt s.Data, Effect.cancel a.O.String],
       Ret.ofError (ex.CancelOrder st a.O.String).2⟩ := by
  obtain ⟨h1, h2, h3, h4⟩ := hg
  simp [Exchange.processSnapshot, h1, h2, h3, h4, hd, hA, hO, Exchange.cancelOrder, Run.after]

theorem processSnapshot_noprice {σ : Type} (ex : Exchange σ) (st : σ) (s : Snapshot)
    (a : OrderAction) (hg : ex.passesGuards s) (hd : ex.decryptOrderAction s.Data = some a)
    (hA : a.A.String ≠ s.Asset.AssetId) (hO : a.O.String = UUID.Nil.String)
    (hp : ((FromString a.P).RoundFloor 8).Exhausted = true) :
    ex.processSnapshot st s = ⟨st, [Effect.decrypt s.Data, Effect.refund s], Ret.ok⟩ := by
  obtain ⟨h1, h2, h3, h4⟩ := hg
  simp [Exchange.processSnapshot, h1, h2, h3, h4, hd, hA, hO, hp, Exchange.refund, Run.after]

theorem processSnapshot_ask {σ : Type} (ex : Exchange σ) (st : σ) (s : Snapshot)
    (a : OrderAction) (hg : ex.passesGuards s) (hd : ex.decryptOrderAction s.Data = some a)
    (hA : a.A.String ≠ s.Asset.AssetId) (hO : a.O.String = UUID.Nil.String)
    (hp : ((FromString a.P).RoundFloor 8).Exhausted = false) (hS : a.S = PageSideAsk) :
    ex.processSnapshot st s =
      (ex.placeOrder st s a a.A.String s.Asset.AssetId ((FromString s.Amount).RoundFloor 8)
        ((FromString a.P).RoundFloor 8)).after [Effect.decrypt s.Data] := by
  obtain ⟨h1, h2, h3, h4⟩ := hg
  simp [Exchange.processSnapshot, h1, h2, h3, h4, hd, hA, hO, hp, hS]

theorem processSnapshot_bid {σ : Type} (ex : Exchange σ) (st : σ) (s : Snapshot)
    (a : OrderAction) (hg : ex.passesGuards s) (hd : ex.decryptOrderAction s.Data = some a)
    (hA : a.A.String ≠ s.Asset.AssetId) (hO : a.O.String = UUID.Nil.String)
    (hp : ((FromString a.P).RoundFloor 8).Exhausted = false) (hS : a.S = PageSideBid) :
    ex.processSnapshot st s =
      (ex.placeOrder st s a s.Asset.AssetId a.A.String
        ((FromString s.Amount).RoundFloor 8 / (FromString a.P).RoundFloor 8)
        ((FromString a.P).RoundFloor 8)).after
        [Effect.decrypt s.Data,
         Effect.div ((FromString s.Amount).RoundFloor 8) ((FromString a.P).RoundFloor 8)] := by
  obtain ⟨h1, h2, h3, h4⟩ := hg
  have hne : PageSideBid ≠ PageSideAsk := by decide
  simp [Exchange.processSnapshot, h1, h2, h3, h4, hd, hA, hO, hp, hS, hne,
    div_of_not_exhausted _ _ hp]

theorem processSnapshot_noside {σ : Type} (ex : Exchange σ) (st : σ) (s : Snapshot)
    (a : OrderAction) (hg : ex.passesGuards s) (hd : ex.decryptOrderAction s.Data = some a)
    (hA : a.A.String ≠ s.Asset.AssetId) (hO : a.O.String = UUID.Nil.String)
    (hp : ((FromString a.P).RoundFloor 8).Exhausted = false)
    (hS1 : a.S ≠ PageSideAsk) (hS2 : a.S ≠ PageSideBid) :
    ex.processSnapshot st s = ⟨st, [Effect.decrypt s.Data, Effect.refund s], Ret.ok⟩ := by
  obtain ⟨h1, h2, h3, h4⟩ := hg
  simp [Exchange.processSnapshot, h1, h2, h3, h4, hd, hA, hO, hp, hS1, hS2, Exchange.refund,
    Run.after]

theorem placeOrder_valid {σ : Type} (ex : Exchange σ) (st : σ) (s : Snapshot) (a : OrderAction)
    (quote base : String) (amount price : Decimal) (hv : validateQuoteBasePair quote base = true) :
    ex.placeOrder st s a quote base amount price =
      ex.createOrder st s.OpponentId s.TraceId a.S quote base amount price s.CreatedAt := by
  simp [Exchange.placeOrder, hv]

theorem placeOrder_invalid {σ : Type} (ex : Exchange σ) (st : σ) (s : Snapshot) (a : OrderAction)
    (quote base : String) (amount price : Decimal) (hv : validateQuoteBasePair quote base = false) :
    ex.placeOrder st s a quote base amount price = ⟨st, [Effect.refund s], Ret.ok⟩ := by
  simp [Exchange.placeOrder, hv, Exchange.refund]

/-- Every create-order effect in the trace of `placeOrder` carries a pair
that `validateQuoteBasePair` accepts. -/
theorem placeOrder_create_valid {σ : Type} (ex : Exchange σ) (st : σ) (s : Snapshot)
    (a : OrderAction) (quote base : String) (amount price : Decimal) (pre : List Effect)
    (hpre : ∀ e ∈ pre, e.isCreate = false)
    (userId traceId side q b : String) (am pr : Decimal) (t : Time)
    (h : Effect.create userId traceId side q b am pr t ∈
      ((ex.placeOrder st s a quote base amount price).after pre).trace) :
    validateQuoteBasePair q b = true := by
  simp only [Run.after, List.mem_append] at h
  rcases h with h | h
  · have := hpre _ h
    simp [Effect.isCreate] at this
  · cases hv : validateQuoteBasePair quote base
    · rw [placeOrder_invalid _ _ _ _ _ _ _ _ hv] at h
      simp at h
    · rw [placeOrder_valid _ _ _ _ _ _ _ _ hv] at h
      simp [Exchange.createOrder] at h
      obtain ⟨-, -, -, rfl, rfl, -⟩ := h
      exact hv

/-- Case analysis of a run of `processSnapshot` on an event that passes the
guard filters: it is refunded after decoding, or cancels an order, or
reaches `placeOrder` on the ask side or on the bid side. -/
theorem processSnapshot_cases {σ : Type} (ex : Exchange σ) (st : σ) (s : Snapshot)
    (hg : ex.passesGuards s) :
    ex.processSnapshot st s = ⟨st, [Effect.decrypt s.Data, Effect.refund s], Ret.ok⟩ ∨
    (∃ a, ex.decryptOrderAction s.Data = some a ∧ a.A.String ≠ s.Asset.AssetId ∧
      a.O.String ≠ UUID.Nil.String ∧
      ex.processSnapshot st s =
        ⟨(ex.CancelOrder st a.O.String).1, [Effect.decrypt s.Data, Effect.cancel a.O.String],
         Ret.ofError (ex.CancelOrder st a.O.String).2⟩) ∨
    (∃ a, ex.decryptOrderAction s.Data = some a ∧ a.A.String ≠ s.Asset.AssetId ∧
      a.O.String = UUID.Nil.String ∧ ((FromString a.P).RoundFloor 8).Exhausted = false ∧
      a.S = PageSideAsk ∧
      ex.processSnapshot st s =
        (ex.placeOrder st s a a.A.String s.Asset.AssetId ((FromString s.Amount).RoundFloor 8)
          ((FromString a.P).RoundFloor 8)).after [Effect.decrypt s.Data]) ∨
    (∃ a, ex.decryptOrderAction s.Data = some a ∧ a.A.String ≠ s.Asset.AssetId ∧
      a.O.String = UUID.Nil.String ∧ ((FromString a.P).RoundFloor 8).Exhausted = false ∧
      a.S = PageSideBid ∧
      ex.processSnapshot st s =
        (ex.placeOrder st s a s.Asset.AssetId a.A.String
          ((FromString s.Amount).RoundFloor 8 / (FromString a.P).RoundFloor 8)
          ((FromString a.P).RoundFloor 8)).after
          [Effect.decrypt s.Data,
           Effect.div ((FromString s.Amount).RoundFloor 8) ((FromString a.P).RoundFloor 8)]) := by
  cases hd : ex.decryptOrderAction s.Data with
  | none => exact Or.inl (processSnapshot_undecoded ex st s hg hd)
  | some a =>
    by_cases hA : a.A.String = s.Asset.AssetId
    · exact Or.inl (processSnapshot_selfref ex st s a hg hd hA)
    · by_cases hO : a.O.String = UUID.Nil.String
      · cases hp : ((FromString a.P).RoundFloor 8).Exhausted with
        | true => exact Or.inl (processSnapshot_noprice ex st s a hg hd hA hO hp)
        | false =>
          by_cases hS1 : a.S = PageSideAsk
          · exact Or.inr (Or.inr (Or.inl
              ⟨a, rfl, hA, hO, hp, hS1, processSnapshot_ask ex st s a hg hd hA hO hp hS1⟩))
          · by_cases hS2 : a.S = PageSideBid
            · exact Or.inr (Or.inr (Or.inr
                ⟨a, rfl, hA, hO, hp, hS2, processSnapshot_bid ex st s a hg hd hA hO hp hS2⟩))
            · exact Or.inl (processSnapshot_noside ex st s a hg hd hA hO hp hS1 hS2)
      · exact Or.inr (Or.inl ⟨a, rfl, hA, hO, processSnapshot_cancel ex st s a hg hd hA hO⟩)

/-- The run of `placeOrder`, after effects that are not calls, issues exactly
one call, a refund or a create-order. -/
theorem placeOrder_calls {σ : Type} (ex : Exchange σ) (st : σ) (s : Snapshot) (a : OrderAction)
    (quote base : String) (amount price : Decimal) (pre : List Effect)
    (hpre : pre.filter Effect.isCall = []) :
    ∃ c, ((ex.placeOrder st s a quote base amount price).after pre).calls = [c] ∧
      (c.isRefund = true ∨ c.isCreate = true) := by
  cases hv : validateQuoteBasePair quote base
  · rw [placeOrder_invalid _ _ _ _ _ _ _ _ hv]
    exact ⟨Effect.refund s, by simp [Run.calls, Run.after, hpre, Effect.isCall],
      Or.inl rfl⟩
  · rw [placeOrder_valid _ _ _ _ _ _ _ _ hv]
    exact ⟨Effect.create s.OpponentId s.TraceId a.S quote base amount price s.CreatedAt,
      by simp [Run.calls, Run.after, hpre, Effect.isCall, Exchange.createOrder], Or.inr rfl⟩

/-! ## Pair policy -/

theorem validate_eq_true_iff (quote base : String) :
    validateQuoteBasePair quote base = true ↔
      (quote = BitcoinAssetId ∨ quote = USDTAssetId) ∧
        ¬ (quote = BitcoinAssetId ∧ base = USDTAssetId) := by
  unfold validateQuoteBasePair
  by_cases h1 : quote = BitcoinAssetId <;> by_cases h2 : quote = USDTAssetId <;>
    by_cases h3 : base = USDTAssetId <;> simp [h1, h2, h3]

/-- C1: `validateQuoteBasePair quote base` is true exactly when `quote` is one
of the two anchor assets (Bitcoin or USDT) and the pair is not Bitcoin as
quote with USDT as base. -/
theorem validateQuoteBasePair_iff (quote base : String) :
    validateQuoteBasePair quote base = true ↔
      (quote = BitcoinAssetId ∨ quote = USDTAssetId) ∧
        ¬ (quote = BitcoinAssetId ∧ base = USDTAssetId) :=
  validate_eq_true_iff quote base

/-- C2: whenever a run of `processSnapshot` issues a create-order call, the
quote passed is an anchor asset (Bitcoin or USDT) and the pair passed is not
Bitcoin as quote with USDT as base, whatever the event, the memo, the side
and the price. -/
theorem processSnapshot_create_pair {σ : Type} (ex : Exchange σ) (st : σ) (s : Snapshot)
    (userId traceId side quote base : String) (amount price : Decimal) (createdAt : Time)
    (h : Effect.create userId traceId side quote base amount price createdAt ∈
      (ex.processSnapshot st s).trace) :
    (quote = BitcoinAssetId ∨ quote = USDTAssetId) ∧
      ¬ (quote = BitcoinAssetId ∧ base = USDTAssetId) := by
  rw [← validate_eq_true_iff]
  by_cases hg : ex.passesGuards s
  · rcases processSnapshot_cases ex st s hg with hc | ⟨a, -, -, -, hc⟩ | ⟨a, -, -, -, -, -, hc⟩ |
      ⟨a, -, -, -, -, -, hc⟩
    · rw [hc] at h
      simp at h
    · rw [hc] at h
      simp at h
    · rw [hc] at h
      exact placeOrder_create_valid ex st s a _ _ _ _ _ (by simp [Effect.isCreate])
        _ _ _ _ _ _ _ _ h
    · rw [hc] at h
      exact placeOrder_create_valid ex st s a _ _ _ _ _ (by simp [Effect.isCreate])
        _ _ _ _ _ _ _ _ h
  · rw [processSnapshot_ignored ex st s hg] at h
    simp at h

/-! ## Facts about the sample inputs -/

theorem FromString_of_read (source : String) (m : Int) (k : Nat)
    (h : readDecimal source.toList = some (m, k)) :
    FromString source = (m : ℚ) / (10 : ℚ) ^ k := by
  unfold FromString
  rw [h]

theorem roundFloor_askAmount :
    (FromString "1.23456789012").RoundFloor 8 = 123456789 / 100000000 := by
  rw [FromString_of_read "1.23456789012" 123456789012 11 (by decide)]
  simp only [Decimal.RoundFloor]
  norm_num

theorem roundFloor_askPrice :
    (FromString "100.00000001").RoundFloor 8 = 10000000001 / 100000000 := by
  rw [FromString_of_read "100.00000001" 10000000001 8 (by decide)]
  simp only [Decimal.RoundFloor]
  norm_num

theorem roundFloor_bidAmount : (FromString "0.00000001").RoundFloor 8 = 1 / 100000000 := by
  rw [FromString_of_read "0.00000001" 1 8 (by decide)]
  simp only [Decimal.RoundFloor]
  norm_num

theorem roundFloor_two : (FromString "2").RoundFloor 8 = 2 := by
  rw [FromString_of_read "2" 2 0 (by decide)]
  simp only [Decimal.RoundFloor]
  norm_num

theorem roundFloor_six : (FromString "6").RoundFloor 8 = 6 := by
  rw [FromString_of_read "6" 6 0 (by decide)]
  simp only [Decimal.RoundFloor]
  norm_num

theorem roundFloor_zero : (FromString "0").RoundFloor 8 = 0 := by
  rw [FromString_of_read "0" 0 0 (by decide)]
  simp [Decimal.RoundFloor]

theorem roundFloor_one : (FromString "1").RoundFloor 8 = 1 := by
  rw [FromString_of_read "1" 1 0 (by decide)]
  simp only [Decimal.RoundFloor]
  norm_num

theorem passesGuards_askSnapshot : demoExchange.passesGuards askSnapshot := by
  refine ⟨by decide, by decide, by decide, ?_⟩
  show (FromString "1.23456789012").Exhausted = false
  rw [FromString_of_read "1.23456789012" 123456789012 11 (by decide), exhausted_eq_false_iff]
  norm_num

theorem passesGuards_bidSnapshot : demoExchange.passesGuards bidSnapshot := by
  refine ⟨by decide, by decide, by decide, ?_⟩
  show (FromString "0.00000001").Exhausted = false
  rw [FromString_of_read "0.00000001" 1 8 (by decide), exhausted_eq_false_iff]
  norm_num

theorem passesGuards_bidSnapshot6 : demoExchange.passesGuards bidSnapshot6 := by
  refine ⟨by decide, by decide, by decide, ?_⟩
  show (FromString "6").Exhausted = false
  rw [FromString_of_read "6" 6 0 (by decide), exhausted_eq_false_iff]
  norm_num

theorem passesGuards_of_one (s : Snapshot) (h1 : s.UserId = "exchange") (h2 : s.OpponentId ≠ "")
    (h3 : s.TraceId ≠ "") (h4 : s.Amount = "1") : demoExchange.passesGuards s := by
  refine ⟨h1, h2, h3, ?_⟩
  rw [h4, FromString_of_read "1" 1 0 (by decide), exhausted_eq_false_iff]
  norm_num

theorem askPrice_not_exhausted : ((FromString askAction.P).RoundFloor 8).Exhausted = false := by
  show ((FromString "100.00000001").RoundFloor 8).Exhausted = false
  rw [roundFloor_askPrice, exhausted_eq_false_iff]
  norm_num

theorem bidPrice_not_exhausted : ((FromString bidAction.P).RoundFloor 8).Exhausted = false := by
  show ((FromString "2").RoundFloor 8).Exhausted = false
  rw [roundFloor_two, exhausted_eq_false_iff]
  norm_num

/-! ## Creating orders -/

/-- Witness of C2 at the sample ask: the run creates an order with USDT as
quote, and that pair satisfies the policy. -/
theorem processSnapshot_create_pair_witness :
    Effect.create "alice" "t1" "ASK" USDTAssetId otherAssetId
        ((FromString "1.23456789012").RoundFloor 8) ((FromString "100.00000001").RoundFloor 8)
        1000 ∈ (demoExchange.processSnapshot [] askSnapshot).trace ∧
      ((USDTAssetId = BitcoinAssetId ∨ USDTAssetId = USDTAssetId) ∧
        ¬ (USDTAssetId = BitcoinAssetId ∧ otherAssetId = USDTAssetId)) := by
  have hmem : Effect.create "alice" "t1" "ASK" USDTAssetId otherAssetId
      ((FromString "1.23456789012").RoundFloor 8) ((FromString "100.00000001").RoundFloor 8)
      1000 ∈ (demoExchange.processSnapshot [] askSnapshot).trace := by
    rw [processSnapshot_ask demoExchange [] askSnapshot askAction passesGuards_askSnapshot
      (by decide) (by decide) (by decide) askPrice_not_exhausted (by decide),
      placeOrder_valid _ _ _ _ _ _ _ _ (by decide)]
    simp [Run.after, Exchange.createOrder, askSnapshot, askAction]
    decide
  exact ⟨hmem, processSnapshot_create_pair demoExchange [] askSnapshot _ _ _ _ _ _ _ _ hmem⟩

/-- C3: ask passthrough.  For an event that passes the guard filters and whose
memo decodes to an instruction with side ask, a reference asset different
from the event's asset, the nil order id, a price whose floor to 8 digits is
not exhausted, and a valid pair (reference asset, event asset), the run
issues exactly one call, a create-order with side ask, quote the reference
asset, base the event's asset, quantity the amount floored to 8 digits and
price the instruction's price floored to 8 digits. -/
theorem processSnapshot_ask_passthrough {σ : Type} (ex : Exchange σ) (st : σ) (s : Snapshot)
    (a : OrderAction) (hg : ex.passesGuards s) (hd : ex.decryptOrderAction s.Data = some a)
    (hS : a.S = PageSideAsk) (hA : a.A.String ≠ s.Asset.AssetId) (hO : a.O = UUID.Nil)
    (hp : ((FromString a.P).RoundFloor 8).Exhausted = false)
    (hv : validateQuoteBasePair a.A.String s.Asset.AssetId = true) :
    (ex.processSnapshot st s).calls =
      [Effect.create s.OpponentId s.TraceId PageSideAsk a.A.String s.Asset.AssetId
        ((FromString s.Amount).RoundFloor 8) ((FromString a.P).RoundFloor 8) s.CreatedAt] := by
  rw [processSnapshot_ask ex st s a hg hd hA (by rw [hO]) hp hS, placeOrder_valid _ _ _ _ _ _ _ _ hv]
  simp [Run.calls, Run.after, Exchange.createOrder, Effect.isCall, hS]

/-- Witness of C3, the scenario of the specification: amount "1.23456789012"
of the third asset, side ask, reference asset USDT, price "100.00000001"
give one create-order call with quantity 1.23456789 and price 100.00000001. -/
theorem processSnapshot_ask_passthrough_witness :
    demoExchange.passesGuards askSnapshot ∧
      demoExchange.decryptOrderAction askSnapshot.Data = some askAction ∧
      askAction.S = PageSideAsk ∧ askAction.A.String ≠ askSnapshot.Asset.AssetId ∧
      askAction.O = UUID.Nil ∧
      validateQuoteBasePair askAction.A.String askSnapshot.Asset.AssetId = true ∧
      (demoExchange.processSnapshot [] askSnapshot).calls =
        [Effect.create "alice" "t1" "ASK" USDTAssetId otherAssetId
          (123456789 / 100000000) (10000000001 / 100000000) 1000] := by
  refine ⟨passesGuards_askSnapshot, by decide, by decide, by decide, by decide, by decide, ?_⟩
  have h := processSnapshot_ask_passthrough demoExchange [] askSnapshot askAction
    passesGuards_askSnapshot (by decide) (by decide) (by decide) (by decide)
    askPrice_not_exhausted (by decide)
  rw [h]
  show [Effect.create "alice" "t1" "ASK" usdtUUID.String otherAssetId
    ((FromString "1.23456789012").RoundFloor 8) ((FromString "100.00000001").RoundFloor 8) 1000] = _
  rw [roundFloor_askAmount, roundFloor_askPrice, show usdtUUID.String = USDTAssetId from by decide]

/-- Counterexample to C4 as stated: a deposit of 0.00000001 USDT with a bid
for Bitcoin at price 2 meets every condition of the claim, and the order
created has quantity 0.000000005, which is not floored to 8 digits; the
claimed quantity floor8(floor8(A) / floor8(P)) is 0. -/
theorem processSnapshot_bid_quantity_not_floored :
    demoExchange.passesGuards bidSnapshot ∧
      demoExchange.decryptOrderAction bidSnapshot.Data = some bidAction ∧
      bidAction.S = PageSideBid ∧ bidAction.A.String ≠ bidSnapshot.Asset.AssetId ∧
      bidAction.O = UUID.Nil ∧
      ((FromString bidAction.P).RoundFloor 8).Exhausted = false ∧
      validateQuoteBasePair bidSnapshot.Asset.AssetId bidAction.A.String = true ∧
      (demoExchange.processSnapshot [] bidSnapshot).calls =
        [Effect.create "bob" "t2" "BID" USDTAssetId BitcoinAssetId (1 / 200000000) 2 2000] ∧
      Decimal.RoundFloor ((FromString bidSnapshot.Amount).RoundFloor 8 /
        (FromString bidAction.P).RoundFloor 8) 8 = 0 ∧
      (1 / 200000000 : Decimal) ≠ 0 := by
  refine ⟨passesGuards_bidSnapshot, by decide, by decide, by decide, by decide,
    bidPrice_not_exhausted, by decide, ?_, ?_, by norm_num⟩
  · rw [processSnapshot_bid demoExchange [] bidSnapshot bidAction passesGuards_bidSnapshot
      (by decide) (by decide) (by decide) bidPrice_not_exhausted (by decide),
      placeOrder_valid _ _ _ _ _ _ _ _ (by decide)]
    show List.filter Effect.isCall
      [Effect.decrypt "Ag==",
       Effect.div ((FromString "0.00000001").RoundFloor 8) ((FromString "2").RoundFloor 8),
       Effect.create "bob" "t2" "BID" USDTAssetId bitcoinUUID.String
        ((FromString "0.00000001").RoundFloor 8 / (FromString "2").RoundFloor 8)
        ((FromString "2").RoundFloor 8) 2000] = _
    rw [roundFloor_bidAmount, roundFloor_two, show bitcoinUUID.String = BitcoinAssetId from by decide]
    simp [Effect.isCall]
    norm_num
  · show Decimal.RoundFloor ((FromString "0.00000001").RoundFloor 8 /
      (FromString "2").RoundFloor 8) 8 = 0
    rw [roundFloor_bidAmount, roundFloor_two]
    simp only [Decimal.RoundFloor]
    norm_num

/-- C4, amended: bid quantity conversion.  For an event that passes the guard
filters and whose memo decodes to an instruction with side bid, a reference
asset different from the event's asset, the nil order id, a price whose
floor to 8 digits is not exhausted, and a valid pair (event asset, reference
asset), the run issues exactly one call, a create-order with side bid, quote
the event's asset, base the reference asset, price the floored price, and
quantity the quotient of the floored amount by the floored price, as `Div`
returns it and with no further rounding. -/
theorem processSnapshot_bid_quantity {σ : Type} (ex : Exchange σ) (st : σ) (s : Snapshot)
    (a : OrderAction) (hg : ex.passesGuards s) (hd : ex.decryptOrderAction s.Data = some a)
    (hS : a.S = PageSideBid) (hA : a.A.String ≠ s.Asset.AssetId) (hO : a.O = UUID.Nil)
    (hp : ((FromString a.P).RoundFloor 8).Exhausted = false)
    (hv : validateQuoteBasePair s.Asset.AssetId a.A.String = true) :
    ∃ quantity,
      ((FromString s.Amount).RoundFloor 8).Div ((FromString a.P).RoundFloor 8) = some quantity ∧
      quantity = (FromString s.Amount).RoundFloor 8 / (FromString a.P).RoundFloor 8 ∧
      (ex.processSnapshot st s).calls =
        [Effect.create s.OpponentId s.TraceId PageSideBid s.Asset.AssetId a.A.String
          quantity ((FromString a.P).RoundFloor 8) s.CreatedAt] := by
  refine ⟨_, div_of_not_exhausted _ _ hp, rfl, ?_⟩
  rw [processSnapshot_bid ex st s a hg hd hA (by rw [hO]) hp hS, placeOrder_valid _ _ _ _ _ _ _ _ hv]
  simp [Run.calls, Run.after, Exchange.createOrder, Effect.isCall, hS]

/-- Witness of the amended C4: a deposit of 6 USDT with a bid for Bitcoin at
price 2 creates an order for 3. -/
theorem processSnapshot_bid_quantity_witness :
    demoExchange.passesGuards bidSnapshot6 ∧
      demoExchange.decryptOrderAction bidSnapshot6.Data = some bidAction ∧
      (∃ quantity,
        ((FromString bidSnapshot6.Amount).RoundFloor 8).Div
          ((FromString bidAction.P).RoundFloor 8) = some quantity ∧
        quantity = (FromString bidSnapshot6.Amount).RoundFloor 8 /
          (FromString bidAction.P).RoundFloor 8 ∧
        (demoExchange.processSnapshot [] bidSnapshot6).calls =
          [Effect.create bidSnapshot6.OpponentId bidSnapshot6.TraceId PageSideBid
            bidSnapshot6.Asset.AssetId bidAction.A.String quantity
            ((FromString bidAction.P).RoundFloor 8) bidSnapshot6.CreatedAt]) ∧
      (FromString bidSnapshot6.Amount).RoundFloor 8 / (FromString bidAction.P).RoundFloor 8 = 3 :=
  ⟨passesGuards_bidSnapshot6, by decide,
    processSnapshot_bid_quantity demoExchange [] bidSnapshot6 bidAction passesGuards_bidSnapshot6
      (by decide) (by decide) (by decide) (by decide) bidPrice_not_exhausted (by decide),
    by
      show (FromString "6").RoundFloor 8 / (FromString "2").RoundFloor 8 = 3
      rw [roundFloor_six, roundFloor_two]
      norm_num⟩


/-! ## Guard filters -/

/-- C5: guard filters.  If the receiving account is not the exchange's client
id, or the counterparty id is empty, or the trace id is empty, or the amount
is exhausted, the run returns success, leaves the state alone and has an
empty trace: the memo is not decoded and no refund, cancel or create-order
call is issued, whatever the memo and the codec.  If none of the four
conditions holds, the run issues exactly one call, which is a refund, a
cancel or a create-order. -/
theorem processSnapshot_guard_filters {σ : Type} (ex : Exchange σ) (st : σ) (s : Snapshot) :
    ((s.UserId ≠ ex.ClientId ∨ s.OpponentId = "" ∨ s.TraceId = "" ∨
        (FromString s.Amount).Exhausted = true) →
      ex.processSnapshot st s = ⟨st, [], Ret.ok⟩) ∧
    (¬ (s.UserId ≠ ex.ClientId ∨ s.OpponentId = "" ∨ s.TraceId = "" ∨
        (FromString s.Amount).Exhausted = true) →
      ∃ c, (ex.processSnapshot st s).calls = [c] ∧
        (c.isRefund = true ∨ c.isCancel = true ∨ c.isCreate = true)) := by
  constructor
  · intro h
    apply processSnapshot_ignored
    rintro ⟨h1, h2, h3, h4⟩
    rcases h with h | h | h | h
    · exact h h1
    · exact h2 h
    · exact h3 h
    · rw [h4] at h
      exact Bool.noConfusion h
  · intro h
    simp only [not_or, not_not, Bool.not_eq_true] at h
    have hg : ex.passesGuards s := ⟨h.1, h.2.1, h.2.2.1, h.2.2.2⟩
    rcases processSnapshot_cases ex st s hg with hc | ⟨a, -, -, -, hc⟩ | ⟨a, -, -, -, -, -, hc⟩ |
      ⟨a, -, -, -, -, -, hc⟩
    · rw [hc]
      exact ⟨Effect.refund s, by simp [Run.calls, Effect.isCall], Or.inl rfl⟩
    · rw [hc]
      exact ⟨Effect.cancel a.O.String, by simp [Run.calls, Effect.isCall], Or.inr (Or.inl rfl)⟩
    · rw [hc]
      obtain ⟨c, hc1, hc2⟩ := placeOrder_calls ex st s a a.A.String s.Asset.AssetId
        ((FromString s.Amount).RoundFloor 8) ((FromString a.P).RoundFloor 8)
        [Effect.decrypt s.Data] (by simp [Effect.isCall])
      exact ⟨c, hc1, hc2.elim Or.inl (fun h => Or.inr (Or.inr h))⟩
    · rw [hc]
      obtain ⟨c, hc1, hc2⟩ := placeOrder_calls ex st s a s.Asset.AssetId a.A.String
        ((FromString s.Amount).RoundFloor 8 / (FromString a.P).RoundFloor 8)
        ((FromString a.P).RoundFloor 8)
        [Effect.decrypt s.Data,
         Effect.div ((FromString s.Amount).RoundFloor 8) ((FromString a.P).RoundFloor 8)]
        (by simp [Effect.isCall])
      exact ⟨c, hc1, hc2.elim Or.inl (fun h => Or.inr (Or.inr h))⟩

/-- Witness of C5: the sample deposit sent to another account is ignored
although its memo is a valid ask, and the same memo on a deposit to the
exchange leads to exactly one call. -/
theorem processSnapshot_guard_filters_witness :
    foreignSnapshot.UserId ≠ demoExchange.ClientId ∧
      demoExchange.processSnapshot [] foreignSnapshot = ⟨[], [], Ret.ok⟩ ∧
      ∃ c, (demoExchange.processSnapshot [] askSnapshot).calls = [c] ∧
        (c.isRefund = true ∨ c.isCancel = true ∨ c.isCreate = true) :=
  ⟨by decide,
    (processSnapshot_guard_filters demoExchange [] foreignSnapshot).1 (Or.inl (by decide)),
    (processSnapshot_guard_filters demoExchange [] askSnapshot).2 (by
      have hg := passesGuards_askSnapshot
      rintro (h | h | h | h)
      · exact h hg.1
      · exact hg.2.1 h
      · exact hg.2.2.1 h
      · rw [hg.2.2.2] at h
        exact Bool.noConfusion h)⟩

/-! ## Cancel and refund -/

/-- Counterexample to C6 as stated: the sample deposit of USDT carries an
instruction with a non-nil order id whose reference asset is USDT itself;
the run refunds it and issues no cancel. -/
theorem processSnapshot_cancel_precedence_fails :
    demoExchange.passesGuards selfSnapshot ∧
      demoExchange.decryptOrderAction selfSnapshot.Data = some cancelAction ∧
      cancelAction.O ≠ UUID.Nil ∧
      cancelAction.A.String = selfSnapshot.Asset.AssetId ∧
      (demoExchange.processSnapshot [] selfSnapshot).calls = [Effect.refund selfSnapshot] ∧
      Effect.cancel cancelAction.O.String ∉ (demoExchange.processSnapshot [] selfSnapshot).trace := by
  have hg : demoExchange.passesGuards selfSnapshot :=
    passesGuards_of_one selfSnapshot rfl (by decide) (by decide) rfl
  have hrun := processSnapshot_selfref demoExchange [] selfSnapshot cancelAction hg (by decide)
    (by decide)
  refine ⟨hg, by decide, by decide, by decide, ?_, ?_⟩
  · rw [hrun]
    simp [Run.calls, Effect.isCall]
  · rw [hrun]
    simp

/-- C6, amended: cancel precedence.  For an event that passes the guard
filters and whose memo decodes to an instruction with a non-nil order id and
a reference asset different from the event's asset, the run resolves to the
cancel of that order id and returns what the cancel returns, whatever the
side and the price of the instruction. -/
theorem processSnapshot_cancel_precedence {σ : Type} (ex : Exchange σ) (st : σ) (s : Snapshot)
    (a : OrderAction) (hg : ex.passesGuards s) (hd : ex.decryptOrderAction s.Data = some a)
    (hO : a.O ≠ UUID.Nil) (hA : a.A.String ≠ s.Asset.AssetId) :
    (ex.processSnapshot st s).calls = [Effect.cancel a.O.String] ∧
      (ex.processSnapshot st s).ret = Ret.ofError (ex.CancelOrder st a.O.String).2 := by
  rw [processSnapshot_cancel ex st s a hg hd hA (UUID.String_ne hO)]
  simp [Run.calls, Effect.isCall]

/-- Witness of the amended C6: the sample deposit of the third asset names an
order, with side "HOLD" and price "0"; the run cancels that order. -/
theorem processSnapshot_cancel_precedence_witness :
    demoExchange.passesGuards cancelSnapshot ∧
      demoExchange.decryptOrderAction cancelSnapshot.Data = some cancelAction ∧
      cancelAction.O ≠ UUID.Nil ∧ cancelAction.A.String ≠ cancelSnapshot.Asset.AssetId ∧
      (demoExchange.processSnapshot [] cancelSnapshot).calls =
        [Effect.cancel cancelAction.O.String] ∧
      (demoExchange.processSnapshot [] cancelSnapshot).ret =
        Ret.ofError (demoExchange.CancelOrder [] cancelAction.O.String).2 :=
  have hg : demoExchange.passesGuards cancelSnapshot :=
    passesGuards_of_one cancelSnapshot rfl (by decide) (by decide) rfl
  ⟨hg, by decide, by decide, by decide,
    processSnapshot_cancel_precedence demoExchange [] cancelSnapshot cancelAction hg (by decide)
      (by decide) (by decide)⟩

/-- Counterexample to C7 as stated: the instruction of the sample deposit of
the third asset has a price that floors to zero and a side that is neither
ask nor bid, and the run cancels the order it names instead of refunding. -/
theorem processSnapshot_refund_closure_fails :
    demoExchange.passesGuards cancelSnapshot ∧
      demoExchange.decryptOrderAction cancelSnapshot.Data = some cancelAction ∧
      (FromString cancelAction.P).RoundFloor 8 = 0 ∧
      cancelAction.S ≠ PageSideAsk ∧ cancelAction.S ≠ PageSideBid ∧
      (demoExchange.processSnapshot [] cancelSnapshot).calls = [Effect.cancel orderId] ∧
      Effect.refund cancelSnapshot ∉ (demoExchange.processSnapshot [] cancelSnapshot).trace := by
  have hg : demoExchange.passesGuards cancelSnapshot :=
    passesGuards_of_one cancelSnapshot rfl (by decide) (by decide) rfl
  have hrun := processSnapshot_cancel demoExchange [] cancelSnapshot cancelAction hg (by decide)
    (by decide) (by decide)
  refine ⟨hg, by decide, roundFloor_zero, by decide, by decide, ?_, ?_⟩
  · rw [hrun, show cancelAction.O.String = orderId from by decide]
    simp [Run.calls, Effect.isCall]
  · rw [hrun]
    simp

/-- C7, amended: refund closure.  For an event that passes the guard filters,
if the memo is not valid base64, or the payload does not deserialize, or the
reference asset equals the event's asset, or, the order id being nil, the
floored price is exhausted (zero or less), or the side is neither ask nor
bid, or the resolved (quote, base) pair is disallowed, then the run issues
exactly one call, the refund of the event, returns success, and issues no
create-order and no cancel. -/
theorem processSnapshot_refund_closure {σ : Type} (ex : Exchange σ) (st : σ) (s : Snapshot)
    (hg : ex.passesGuards s)
    (h : ex.DecodeString s.Data = none ∨
      (∃ payload, ex.DecodeString s.Data = some payload ∧ ex.codec payload = none) ∨
      (∃ a, ex.decryptOrderAction s.Data = some a ∧
        (a.A.String = s.Asset.AssetId ∨
          (a.O = UUID.Nil ∧
            (((FromString a.P).RoundFloor 8).Exhausted = true ∨
              (a.S ≠ PageSideAsk ∧ a.S ≠ PageSideBid) ∨
              (a.S = PageSideAsk ∧ validateQuoteBasePair a.A.String s.Asset.AssetId = false) ∨
              (a.S = PageSideBid ∧
                validateQuoteBasePair s.Asset.AssetId a.A.String = false)))))) :
    (ex.processSnapshot st s).calls = [Effect.refund s] ∧
      (ex.processSnapshot st s).ret = Ret.ok ∧
      ∀ e ∈ (ex.processSnapshot st s).trace, e.isCreate = false ∧ e.isCancel = false := by
  have plain : ex.processSnapshot st s = ⟨st, [Effect.decrypt s.Data, Effect.refund s], Ret.ok⟩ →
      (ex.processSnapshot st s).calls = [Effect.refund s] ∧
        (ex.processSnapshot st s).ret = Ret.ok ∧
        ∀ e ∈ (ex.processSnapshot st s).trace, e.isCreate = false ∧ e.isCancel = false := by
    intro hrun
    rw [hrun]
    simp [Run.calls, Effect.isCall, Effect.isCreate, Effect.isCancel]
  rcases h with h | ⟨payload, h1, h2⟩ | ⟨a, hd, h⟩
  · exact plain (processSnapshot_undecoded ex st s hg (by simp [Exchange.decryptOrderAction, h]))
  · exact plain (processSnapshot_undecoded ex st s hg
      (by simp [Exchange.decryptOrderAction, h1, h2]))
  · by_cases hA : a.A.String = s.Asset.AssetId
    · exact plain (processSnapshot_selfref ex st s a hg hd hA)
    · rcases h with h | ⟨hO, h⟩
      · exact absurd h hA
      · have hO' : a.O.String = UUID.Nil.String := by rw [hO]
        cases hp : ((FromString a.P).RoundFloor 8).Exhausted with
        | true => exact plain (processSnapshot_noprice ex st s a hg hd hA hO' hp)
        | false =>
          rcases h with h | ⟨h1, h2⟩ | ⟨h1, h2⟩ | ⟨h1, h2⟩
          · rw [hp] at h
            exact Bool.noConfusion h
          · exact plain (processSnapshot_noside ex st s a hg hd hA hO' hp h1 h2)
          · rw [processSnapshot_ask ex st s a hg hd hA hO' hp h1,
              placeOrder_invalid _ _ _ _ _ _ _ _ h2]
            simp [Run.calls, Run.after, Effect.isCall, Effect.isCreate, Effect.isCancel]
          · rw [processSnapshot_bid ex st s a hg hd hA hO' hp h1,
              placeOrder_invalid _ _ _ _ _ _ _ _ h2]
            simp [Run.calls, Run.after, Effect.isCall, Effect.isCreate, Effect.isCancel]

/-- Witness of the amended C7: the sample deposit whose memo is not base64 is
refunded. -/
theorem processSnapshot_refund_closure_witness :
    demoExchange.passesGuards junkSnapshot ∧
      demoExchange.DecodeString junkSnapshot.Data = none ∧
      ((demoExchange.processSnapshot [] junkSnapshot).calls = [Effect.refund junkSnapshot] ∧
        (demoExchange.processSnapshot [] junkSnapshot).ret = Ret.ok ∧
        ∀ e ∈ (demoExchange.processSnapshot [] junkSnapshot).trace,
          e.isCreate = false ∧ e.isCancel = false) :=
  have hg : demoExchange.passesGuards junkSnapshot :=
    passesGuards_of_one junkSnapshot rfl (by decide) (by decide) rfl
  ⟨hg, by decide,
    processSnapshot_refund_closure demoExchange [] junkSnapshot hg (Or.inl (by decide))⟩

/-- C8: self-reference refund.  For an event that passes the guard filters and
whose memo decodes to an instruction whose reference asset, as a UUID
string, equals the event's asset id, the run issues exactly one call, the
refund of the event, and neither a cancel nor a create-order, for every side,
price and order id of the instruction. -/
theorem processSnapshot_selfref_refund {σ : Type} (ex : Exchange σ) (st : σ) (s : Snapshot)
    (a : OrderAction) (hg : ex.passesGuards s) (hd : ex.decryptOrderAction s.Data = some a)
    (hA : a.A.String = s.Asset.AssetId) :
    (ex.processSnapshot st s).calls = [Effect.refund s] ∧
      (ex.processSnapshot st s).ret = Ret.ok ∧
      ∀ e ∈ (ex.processSnapshot st s).trace, e.isCancel = false ∧ e.isCreate = false := by
  rw [processSnapshot_selfref ex st s a hg hd hA]
  simp [Run.calls, Effect.isCall, Effect.isCreate, Effect.isCancel]

/-- Witness of C8: the sample deposit of USDT whose instruction refers to USDT
and names an order is refunded. -/
theorem processSnapshot_selfref_refund_witness :
    demoExchange.passesGuards selfSnapshot ∧
      demoExchange.decryptOrderAction selfSnapshot.Data = some cancelAction ∧
      cancelAction.A.String = selfSnapshot.Asset.AssetId ∧
      ((demoExchange.processSnapshot [] selfSnapshot).calls = [Effect.refund selfSnapshot] ∧
        (demoExchange.processSnapshot [] selfSnapshot).ret = Ret.ok ∧
        ∀ e ∈ (demoExchange.processSnapshot [] selfSnapshot).trace,
          e.isCancel = false ∧ e.isCreate = false) :=
  have hg : demoExchange.passesGuards selfSnapshot :=
    passesGuards_of_one selfSnapshot rfl (by decide) (by decide) rfl
  ⟨hg, by decide, by decide,
    processSnapshot_selfref_refund demoExchange [] selfSnapshot cancelAction hg (by decide)
      (by decide)⟩

/-- C9: cancel path.  For an event that passes the guard filters and whose
memo decodes to an instruction with a reference asset different from the
event's asset and a non-nil order id, the run issues exactly one call, the
cancel of exactly that order id, no create-order and no refund, and returns
what the cancel returns; and the run is the same when the side and the price
of the decoded instruction are replaced by any other values. -/
theorem processSnapshot_cancel_path {σ : Type} (ex : Exchange σ) (st : σ) (s : Snapshot)
    (a : OrderAction) (hg : ex.passesGuards s) (hd : ex.decryptOrderAction s.Data = some a)
    (hA : a.A.String ≠ s.Asset.AssetId) (hO : a.O ≠ UUID.Nil) :
    (ex.processSnapshot st s).calls = [Effect.cancel a.O.String] ∧
      (ex.processSnapshot st s).ret = Ret.ofError (ex.CancelOrder st a.O.String).2 ∧
      (∀ e ∈ (ex.processSnapshot st s).trace, e.isCreate = false ∧ e.isRefund = false) ∧
      ∀ (S P : String) (ex' : Exchange σ), ex'.ClientId = ex.ClientId →
        ex'.CancelOrder = ex.CancelOrder →
        ex'.decryptOrderAction s.Data = some ⟨S, a.A, P, a.O⟩ →
        ex'.processSnapshot st s = ex.processSnapshot st s := by
  have hO' := UUID.String_ne hO
  refine ⟨?_, ?_, ?_, ?_⟩
  · rw [processSnapshot_cancel ex st s a hg hd hA hO']
    simp [Run.calls, Effect.isCall]
  · rw [processSnapshot_cancel ex st s a hg hd hA hO']
  · rw [processSnapshot_cancel ex st s a hg hd hA hO']
    simp [Effect.isCreate, Effect.isRefund]
  · intro S P ex' hc hcancel hd'
    have hg' : ex'.passesGuards s := ⟨hg.1.trans hc.symm, hg.2.1, hg.2.2.1, hg.2.2.2⟩
    rw [processSnapshot_cancel ex st s a hg hd hA hO',
      processSnapshot_cancel ex' st s ⟨S, a.A, P, a.O⟩ hg' hd' hA hO', hcancel]

/-- Witness of C9: the sample deposit of the third asset whose instruction
names an order, with side "HOLD" and price "0"; replacing side and price by
those of a valid ask changes nothing. -/
theorem processSnapshot_cancel_path_witness :
    demoExchange.passesGuards cancelSnapshot ∧
      cancelAction.A.String ≠ cancelSnapshot.Asset.AssetId ∧ cancelAction.O ≠ UUID.Nil ∧
      (demoExchange.processSnapshot [] cancelSnapshot).calls = [Effect.cancel orderId] ∧
      (demoExchange.processSnapshot [] cancelSnapshot).ret = Ret.ok ∧
      ({ demoExchange with
          codec := fun _ => some ⟨"ASK", usdtUUID, "100.00000001", orderUUID⟩ } :
        Exchange (List String)).processSnapshot [] cancelSnapshot =
        demoExchange.processSnapshot [] cancelSnapshot := by
  have hg : demoExchange.passesGuards cancelSnapshot :=
    passesGuards_of_one cancelSnapshot rfl (by decide) (by decide) rfl
  have h := processSnapshot_cancel_path demoExchange [] cancelSnapshot cancelAction hg
    (by decide) (by decide) (by decide)
  refine ⟨hg, by decide, by decide, ?_, ?_, ?_⟩
  · rw [h.1, show cancelAction.O.String = orderId from by decide]
  · rw [h.2.1]
    decide
  · exact h.2.2.2 "ASK" "100.00000001" _ rfl rfl (by decide)

/-! ## The page loop -/

theorem getLast_createdAt_cons (c0 : Time) (s : Snapshot) (l : List Snapshot) :
    (((s :: l).getLast?).map Snapshot.CreatedAt).getD c0 =
      ((l.getLast?).map Snapshot.CreatedAt).getD s.CreatedAt := by
  cases l with
  | nil => rfl
  | cons t l =>
    rw [List.getLast?_cons_cons]
    cases h : (t :: l).getLast? with
    | none => simp at h
    | some x => rfl

theorem processPage_cons_ok {σ : Type} (ex : Exchange σ) (st : σ) (c0 : Time) (s : Snapshot)
    (rest : List Snapshot) (h : (ex.processSnapshot st s).ret = Ret.ok) :
    ex.processPage st c0 (s :: rest) =
      ⟨(ex.processPage (ex.processSnapshot st s).state s.CreatedAt rest).state,
       (ex.processPage (ex.processSnapshot st s).state s.CreatedAt rest).checkpoint,
       (ex.processSnapshot st s).trace ++
         (ex.processPage (ex.processSnapshot st s).state s.CreatedAt rest).trace,
       s :: (ex.processPage (ex.processSnapshot st s).state s.CreatedAt rest).processed,
       (ex.processPage (ex.processSnapshot st s).state s.CreatedAt rest).crashed⟩ := by
  simp only [Exchange.processPage, h]

theorem processPage_cons_error {σ : Type} (ex : Exchange σ) (st : σ) (c0 : Time) (s : Snapshot)
    (rest : List Snapshot) (e : Error) (h : (ex.processSnapshot st s).ret = Ret.error e) :
    ex.processPage st c0 (s :: rest) =
      ⟨(ex.processSnapshot st s).state, c0, (ex.processSnapshot st s).trace, [s], false⟩ := by
  simp only [Exchange.processPage, h]

/-- A page on which every event succeeds is processed to the end, and the
checkpoint ends at the creation time of its last event. -/
theorem processPage_allSucceed {σ : Type} (ex : Exchange σ) :
    ∀ (page : List Snapshot) (st : σ) (c0 : Time), ex.allSucceed st page →
      (ex.processPage st c0 page).checkpoint =
          ((page.getLast?).map Snapshot.CreatedAt).getD c0 ∧
        (ex.processPage st c0 page).processed = page ∧
        (ex.processPage st c0 page).state = ex.stateAfter st page
  | [], st, c0, _ => ⟨rfl, rfl, rfl⟩
  | s :: rest, st, c0, h => by
    obtain ⟨h1, h2⟩ := h
    obtain ⟨i1, i2, i3⟩ := processPage_allSucceed ex rest (ex.processSnapshot st s).state
      s.CreatedAt h2
    rw [processPage_cons_ok ex st c0 s rest h1, getLast_createdAt_cons]
    exact ⟨i1, by rw [i2], i3⟩

/-- A page whose events before `ek` succeed and whose event `ek` fails is
processed up to `ek`, and the checkpoint ends at the creation time of the
event before `ek`. -/
theorem processPage_first_failure {σ : Type} (ex : Exchange σ) (ek : Snapshot)
    (post : List Snapshot) :
    ∀ (pre : List Snapshot) (st : σ) (c0 : Time) (e : Error), ex.allSucceed st pre →
      (ex.processSnapshot (ex.stateAfter st pre) ek).ret = Ret.error e →
      (ex.processPage st c0 (pre ++ ek :: post)).checkpoint =
          ((pre.getLast?).map Snapshot.CreatedAt).getD c0 ∧
        (ex.processPage st c0 (pre ++ ek :: post)).processed = pre ++ [ek]
  | [], st, c0, e, _, hf => by
    rw [List.nil_append, processPage_cons_error ex st c0 ek post e hf]
    exact ⟨rfl, rfl⟩
  | s :: pre, st, c0, e, h, hf => by
    obtain ⟨h1, h2⟩ := h
    obtain ⟨i1, i2⟩ := processPage_first_failure ex ek post pre (ex.processSnapshot st s).state
      s.CreatedAt e h2 hf
    rw [List.cons_append, processPage_cons_ok ex st c0 s _ h1, getLast_createdAt_cons]
    exact ⟨i1, by rw [i2, List.cons_append]⟩

/-- C10: checkpoint after a page.  For every starting checkpoint `c0` and
every page processed in order by the inner loop of `PollMixinNetwork`: if no
event fails, the checkpoint afterwards is the creation time of the last
event (`c0` for an empty page) and every event has been processed; if `ek`
is the first event whose processing fails (the events `pre` before it
succeed), the checkpoint afterwards is the creation time of the last event
of `pre` (`c0` when `ek` is the first event of the page) and the events
processed are `pre` and `ek`, none of the events `post` after `ek`. -/
theorem processPage_checkpoint {σ : Type} (ex : Exchange σ) (st : σ) (c0 : Time)
    (page : List Snapshot) :
    (ex.allSucceed st page →
      (ex.processPage st c0 page).checkpoint =
          ((page.getLast?).map Snapshot.CreatedAt).getD c0 ∧
        (ex.processPage st c0 page).processed = page) ∧
    (∀ (pre post : List Snapshot) (ek : Snapshot) (e : Error), page = pre ++ ek :: post →
      ex.allSucceed st pre →
      (ex.processSnapshot (ex.stateAfter st pre) ek).ret = Ret.error e →
      (ex.processPage st c0 page).checkpoint =
          ((pre.getLast?).map Snapshot.CreatedAt).getD c0 ∧
        (ex.processPage st c0 page).processed = pre ++ [ek]) := by
  constructor
  · intro h
    exact ⟨(processPage_allSucceed ex page st c0 h).1, (processPage_allSucceed ex page st c0 h).2.1⟩
  · intro pre post ek e hpage hpre hf
    rw [hpage]
    exact processPage_first_failure ex ek post pre st c0 e hpre hf

theorem processSnapshot_demo_ask :
    demoExchange.processSnapshot [] askSnapshot =
      ⟨["t1"],
       [Effect.decrypt "AQ==",
        Effect.create "alice" "t1" "ASK" usdtUUID.String otherAssetId
          ((FromString "1.23456789012").RoundFloor 8) ((FromString "100.00000001").RoundFloor 8)
          1000],
       Ret.ok⟩ := by
  rw [processSnapshot_ask demoExchange [] askSnapshot askAction passesGuards_askSnapshot
    (by decide) (by decide) (by decide) askPrice_not_exhausted (by decide),
    placeOrder_valid _ _ _ _ _ _ _ _ (by decide)]
  rfl

theorem processSnapshot_demo_busy (st : List String) :
    demoExchange.processSnapshot st busySnapshot =
      ⟨st,
       [Effect.decrypt "AQ==",
        Effect.create "frank" "busy" "ASK" usdtUUID.String otherAssetId
          ((FromString "1").RoundFloor 8) ((FromString "100.00000001").RoundFloor 8) 7000],
       Ret.error "store unavailable"⟩ := by
  rw [processSnapshot_ask demoExchange st busySnapshot askAction
    (passesGuards_of_one busySnapshot rfl (by decide) (by decide) rfl)
    (by decide) (by decide) (by decide) askPrice_not_exhausted (by decide),
    placeOrder_valid _ _ _ _ _ _ _ _ (by decide)]
  rfl

/-- Witness of C10: on the sample page the first event succeeds and the
second fails; the checkpoint moves from 0 to the creation time 1000 of the
first event, and the third event is not processed.  On the page of the first
event alone the checkpoint ends at 1000 as well. -/
theorem processPage_checkpoint_witness :
    (demoExchange.processPage [] 0 demoPage).checkpoint = 1000 ∧
      (demoExchange.processPage [] 0 demoPage).processed = [askSnapshot, busySnapshot] ∧
      (demoExchange.processPage [] 0 [askSnapshot]).checkpoint = 1000 ∧
      (demoExchange.processPage [] 0 [askSnapshot]).processed = [askSnapshot] := by
  have hok : demoExchange.allSucceed [] [askSnapshot] := by
    refine ⟨?_, trivial⟩
    rw [processSnapshot_demo_ask]
  have h2 := (processPage_checkpoint demoExchange [] 0 demoPage).2 [askSnapshot] [holdSnapshot]
    busySnapshot "store unavailable" rfl hok (by rw [processSnapshot_demo_busy])
  have h1 := (processPage_checkpoint demoExchange [] 0 [askSnapshot]).1 hok
  exact ⟨h2.1, h2.2, h1.1, h1.2⟩


/-! ## The checkpoint over pages and iterations -/

theorem processPage_cons_panic {σ : Type} (ex : Exchange σ) (st : σ) (c0 : Time) (s : Snapshot)
    (rest : List Snapshot) (h : (ex.processSnapshot st s).ret = Ret.panic) :
    ex.processPage st c0 (s :: rest) =
      ⟨(ex.processSnapshot st s).state, c0, (ex.processSnapshot st s).trace, [s], true⟩ := by
  simp only [Exchange.processPage, h]

/-- The checkpoint after a page is the checkpoint before it or the creation
time of one of its events. -/
theorem processPage_checkpoint_mem {σ : Type} (ex : Exchange σ) :
    ∀ (page : List Snapshot) (st : σ) (c0 : Time),
      (ex.processPage st c0 page).checkpoint = c0 ∨
        ∃ s ∈ page, (ex.processPage st c0 page).checkpoint = s.CreatedAt
  | [], _, _ => Or.inl rfl
  | s :: rest, st, c0 => by
    cases h : (ex.processSnapshot st s).ret with
    | ok =>
      rw [processPage_cons_ok ex st c0 s rest h]
      rcases processPage_checkpoint_mem ex rest (ex.processSnapshot st s).state s.CreatedAt with
        h1 | ⟨t, ht, h1⟩
      · exact Or.inr ⟨s, List.mem_cons_self _ _, h1⟩
      · exact Or.inr ⟨t, List.mem_cons_of_mem _ ht, h1⟩
    | error e =>
      rw [processPage_cons_error ex st c0 s rest e h]
      exact Or.inl rfl
    | panic =>
      rw [processPage_cons_panic ex st c0 s rest h]
      exact Or.inl rfl

theorem processPage_checkpoint_ge {σ : Type} (ex : Exchange σ) (st : σ) (c0 : Time)
    (page : List Snapshot) (h : ∀ s ∈ page, c0 ≤ s.CreatedAt) :
    c0 ≤ (ex.processPage st c0 page).checkpoint := by
  rcases processPage_checkpoint_mem ex page st c0 with h1 | ⟨s, hs, h1⟩
  · rw [h1]
  · rw [h1]
    exact h s hs

theorem pollIteration_checkpoint_ge {σ : Type} (ex : Exchange σ) (limit : Int)
    (fetched : Except Error (List Snapshot)) (ps : PollState σ)
    (h : ∀ page, fetched = Except.ok page → ∀ s ∈ page, ps.checkpoint ≤ s.CreatedAt) :
    ps.checkpoint ≤ (ex.pollIteration limit fetched ps).checkpoint := by
  unfold Exchange.pollIteration
  by_cases hc : ps.crashed = true
  · simp [hc]
  · cases fetched with
    | error e => simp [hc]
    | ok page =>
      simp only [hc]
      exact processPage_checkpoint_ge ex ps.state ps.checkpoint page (h page rfl)

theorem pollMixinNetwork_checkpoint_mono {σ : Type} (ex : Exchange σ)
    (request : Nat → Time → Int → Except Error (List Snapshot)) (st : σ) (start : Time)
    (h : ∀ i c page, request i c 500 = Except.ok page → ∀ s ∈ page, c ≤ s.CreatedAt)
    (m n : Nat) (hmn : m ≤ n) :
    (ex.pollMixinNetwork request st start m).checkpoint ≤
      (ex.pollMixinNetwork request st start n).checkpoint := by
  induction n with
  | zero =>
    have : m = 0 := Nat.le_zero.1 hmn
    rw [this]
  | succ k ih =>
    rcases Nat.lt_or_ge m (k + 1) with hlt | hge
    · refine le_trans (ih (Nat.lt_succ_iff.1 hlt)) ?_
      show _ ≤ (ex.pollIteration 500 _ _).checkpoint
      exact pollIteration_checkpoint_ge ex 500 _ _ (fun page hp => h k _ page hp)
    · have : m = k + 1 := le_antisymm hmn hge
      rw [this]

/-- Counterexample to C11 as stated: when the page fetched at checkpoint 5000
holds the sample ask, created at time 1000, the checkpoint after the page is
1000, earlier than before; and so are the checkpoints of the poll loop after
one iteration against a ledger that returns that page. -/
theorem processPage_checkpoint_rolls_back :
    (demoExchange.processPage [] 5000 [askSnapshot]).checkpoint = 1000 ∧
      (demoExchange.pollMixinNetwork staleRequest [] 5000 0).checkpoint = 5000 ∧
      (demoExchange.pollMixinNetwork staleRequest [] 5000 1).checkpoint = 1000 ∧
      ¬ ((5000 : Time) ≤ 1000) := by
  have hok : (demoExchange.processSnapshot [] askSnapshot).ret = Ret.ok := by
    rw [processSnapshot_demo_ask]
  have hpage : (demoExchange.processPage [] 5000 [askSnapshot]).checkpoint = 1000 := by
    rw [processPage_cons_ok demoExchange [] 5000 askSnapshot [] hok]
    rfl
  refine ⟨hpage, rfl, ?_, by decide⟩
  show (demoExchange.pollIteration 500 (Except.ok [askSnapshot]) ⟨[], 5000, [], 0, false⟩).checkpoint
    = 1000
  simp only [Exchange.pollIteration]
  exact hpage

/-- C11, amended: the checkpoint is never rolled back by events that are not
older than it.  For every starting checkpoint and every page whose events
have creation times not earlier than the checkpoint, the checkpoint after
the page is not earlier than the checkpoint before it; and when every page
the fetch returns for a checkpoint holds only such events, the checkpoints
of the poll loop after 0, 1, 2, ... iterations are non-decreasing. -/
theorem processPage_checkpoint_never_back {σ : Type} (ex : Exchange σ) :
    (∀ (st : σ) (c0 : Time) (page : List Snapshot), (∀ s ∈ page, c0 ≤ s.CreatedAt) →
      c0 ≤ (ex.processPage st c0 page).checkpoint) ∧
    (∀ (request : Nat → Time → Int → Except Error (List Snapshot)) (st : σ) (start : Time),
      (∀ i c page, request i c 500 = Except.ok page → ∀ s ∈ page, c ≤ s.CreatedAt) →
      ∀ m n, m ≤ n →
        (ex.pollMixinNetwork request st start m).checkpoint ≤
          (ex.pollMixinNetwork request st start n).checkpoint) :=
  ⟨fun st c0 page h => processPage_checkpoint_ge ex st c0 page h,
   fun request st start h m n hmn => pollMixinNetwork_checkpoint_mono ex request st start h m n hmn⟩

/-- Witness of the amended C11: the sample page at checkpoint 0, and the poll
loop against the sample ledger, which returns only snapshots created after
the checkpoint. -/
theorem processPage_checkpoint_never_back_witness :
    (∀ s ∈ demoPage, (0 : Time) ≤ s.CreatedAt) ∧
      (0 : Time) ≤ (demoExchange.processPage [] 0 demoPage).checkpoint ∧
      (∀ i c page, demoRequest i c 500 = Except.ok page → ∀ s ∈ page, c ≤ s.CreatedAt) ∧
      (demoExchange.pollMixinNetwork demoRequest [] 0 0).checkpoint ≤
        (demoExchange.pollMixinNetwork demoRequest [] 0 3).checkpoint := by
  have h0 : ∀ s ∈ demoPage, (0 : Time) ≤ s.CreatedAt := by decide
  have hreq : ∀ i c page, demoRequest i c 500 = Except.ok page → ∀ s ∈ page, c ≤ s.CreatedAt := by
    intro i c page hp s hs
    unfold demoRequest at hp
    by_cases hi : i = 0
    · simp [hi] at hp
    · simp only [hi, if_false, Except.ok.injEq] at hp
      rw [← hp] at hs
      have := List.mem_filter.1 (List.mem_of_mem_take hs)
      exact le_of_lt (by simpa using this.2)
  exact ⟨h0, (processPage_checkpoint_never_back demoExchange).1 [] 0 demoPage h0, hreq,
    (processPage_checkpoint_never_back demoExchange).2 demoRequest [] 0 hreq 0 3 (by decide)⟩

/-! ## Results and errors -/

theorem ofError_eq_error_iff (r : Option Error) (e : Error) :
    Ret.ofError r = Ret.error e ↔ r = some e := by
  cases r <;> simp [Ret.ofError]

theorem ofError_ne_panic (r : Option Error) : Ret.ofError r ≠ Ret.panic := by
  cases r <;> simp [Ret.ofError]

/-- The shapes a run of `processSnapshot` can have. -/
theorem processSnapshot_forms {σ : Type} (ex : Exchange σ) (st : σ) (s : Snapshot) :
    ex.processSnapshot st s = ⟨st, [], Ret.ok⟩ ∨
    ex.processSnapshot st s = ⟨st, [Effect.decrypt s.Data, Effect.refund s], Ret.ok⟩ ∨
    (∃ am pr, ex.processSnapshot st s =
      ⟨st, [Effect.decrypt s.Data, Effect.div am pr, Effect.refund s], Ret.ok⟩) ∨
    (∃ id, ex.processSnapshot st s =
      ⟨(ex.CancelOrder st id).1, [Effect.decrypt s.Data, Effect.cancel id],
       Ret.ofError (ex.CancelOrder st id).2⟩) ∨
    (∃ side q b am pr, ex.processSnapshot st s =
      ⟨(ex.CreateOrder st s.OpponentId s.TraceId side q b am pr s.CreatedAt).1,
       [Effect.decrypt s.Data,
        Effect.create s.OpponentId s.TraceId side q b am pr s.CreatedAt],
       Ret.ofError (ex.CreateOrder st s.OpponentId s.TraceId side q b am pr s.CreatedAt).2⟩) ∨
    (∃ side q b am pr am0, ex.processSnapshot st s =
      ⟨(ex.CreateOrder st s.OpponentId s.TraceId side q b am pr s.CreatedAt).1,
       [Effect.decrypt s.Data, Effect.div am0 pr,
        Effect.create s.OpponentId s.TraceId side q b am pr s.CreatedAt],
       Ret.ofError (ex.CreateOrder st s.OpponentId s.TraceId side q b am pr s.CreatedAt).2⟩) := by
  by_cases hg : ex.passesGuards s
  · rcases processSnapshot_cases ex st s hg with hc | ⟨a, -, -, -, hc⟩ | ⟨a, -, -, -, -, -, hc⟩ |
      ⟨a, -, -, -, -, -, hc⟩
    · exact Or.inr (Or.inl hc)
    · exact Or.inr (Or.inr (Or.inr (Or.inl ⟨_, hc⟩)))
    · cases hv : validateQuoteBasePair a.A.String s.Asset.AssetId
      · rw [placeOrder_invalid _ _ _ _ _ _ _ _ hv] at hc
        exact Or.inr (Or.inl hc)
      · rw [placeOrder_valid _ _ _ _ _ _ _ _ hv] at hc
        exact Or.inr (Or.inr (Or.inr (Or.inr (Or.inl ⟨_, _, _, _, _, hc⟩))))
    · cases hv : validateQuoteBasePair s.Asset.AssetId a.A.String
      · rw [placeOrder_invalid _ _ _ _ _ _ _ _ hv] at hc
        exact Or.inr (Or.inr (Or.inl ⟨_, _, hc⟩))
      · rw [placeOrder_valid _ _ _ _ _ _ _ _ hv] at hc
        exact Or.inr (Or.inr (Or.inr (Or.inr (Or.inr ⟨_, _, _, _, _, _, hc⟩))))
  · exact Or.inl (processSnapshot_ignored ex st s hg)

/-- C12: error propagation.  A run of `processSnapshot` never panics; it
returns a failure exactly when it dispatched a cancel-order or create-order
call whose collaborator failed, and the failure returned is the
collaborator's; a run with an empty trace (an ignored event) and a run that
issues a refund return success. -/
theorem processSnapshot_error_propagation {σ : Type} (ex : Exchange σ) (st : σ) (s : Snapshot) :
    (ex.processSnapshot st s).ret ≠ Ret.panic ∧
    (∀ e, (ex.processSnapshot st s).ret = Ret.error e ↔
      ((∃ id, Effect.cancel id ∈ (ex.processSnapshot st s).trace ∧
          (ex.CancelOrder st id).2 = some e) ∨
        (∃ u t side q b am pr ts,
          Effect.create u t side q b am pr ts ∈ (ex.processSnapshot st s).trace ∧
          (ex.CreateOrder st u t side q b am pr ts).2 = some e))) ∧
    ((ex.processSnapshot st s).trace = [] → (ex.processSnapshot st s).ret = Ret.ok) ∧
    (∀ c ∈ (ex.processSnapshot st s).trace, c.isRefund = true →
      (ex.processSnapshot st s).ret = Ret.ok) := by
  rcases processSnapshot_forms ex st s with hc | hc | ⟨am, pr, hc⟩ | ⟨id, hc⟩ |
    ⟨side, q, b, am, pr, hc⟩ | ⟨side, q, b, am, pr, am0, hc⟩
  · rw [hc]
    simp
  · rw [hc]
    simp
  · rw [hc]
    simp
  · rw [hc]
    refine ⟨ofError_ne_panic _, ?_, by simp, by simp [Effect.isRefund]⟩
    intro e
    rw [ofError_eq_error_iff]
    simp
  · rw [hc]
    refine ⟨ofError_ne_panic _, ?_, by simp, by simp [Effect.isRefund]⟩
    intro e
    rw [ofError_eq_error_iff]
    simp only [List.mem_cons, List.mem_singleton, Effect.create.injEq, false_and, false_or,
      exists_false, or_false, List.not_mem_nil, reduceCtorEq]
    constructor
    · intro h
      exact ⟨_, _, _, _, _, _, _, _, ⟨rfl, rfl, rfl, rfl, rfl, rfl, rfl, rfl⟩, h⟩
    · rintro ⟨u, t, side1, q1, b1, am1, pr1, ts, ⟨rfl, rfl, rfl, rfl, rfl, rfl, rfl, rfl⟩, h⟩
      exact h
  · rw [hc]
    refine ⟨ofError_ne_panic _, ?_, by simp, by simp [Effect.isRefund]⟩
    intro e
    rw [ofError_eq_error_iff]
    simp only [List.mem_cons, List.mem_singleton, Effect.create.injEq, false_and, false_or,
      exists_false, or_false, List.not_mem_nil, reduceCtorEq]
    constructor
    · intro h
      exact ⟨_, _, _, _, _, _, _, _, ⟨rfl, rfl, rfl, rfl, rfl, rfl, rfl, rfl⟩, h⟩
    · rintro ⟨u, t, side1, q1, b1, am1, pr1, ts, ⟨rfl, rfl, rfl, rfl, rfl, rfl, rfl, rfl⟩, h⟩
      exact h

/-- Witness of C12: in the sample exchange the order of `busySnapshot` cannot
be created, and the run returns the error of `CreateOrder`; the sample ask
succeeds and the deposit with an unreadable memo is refunded with
success. -/
theorem processSnapshot_error_propagation_witness :
    (demoExchange.processSnapshot [] busySnapshot).ret = Ret.error "store unavailable" ∧
      (demoExchange.processSnapshot [] askSnapshot).ret ≠ Ret.panic ∧
      (demoExchange.processSnapshot [] junkSnapshot).ret = Ret.ok := by
  refine ⟨?_, (processSnapshot_error_propagation demoExchange [] askSnapshot).1, ?_⟩
  · refine ((processSnapshot_error_propagation demoExchange [] busySnapshot).2.1 _).2
      (Or.inr ⟨"frank", "busy", "ASK", usdtUUID.String, otherAssetId,
        (FromString "1").RoundFloor 8, (FromString "100.00000001").RoundFloor 8, 7000, ?_, rfl⟩)
    rw [processSnapshot_demo_busy]
    simp
  · refine (processSnapshot_error_propagation demoExchange [] junkSnapshot).2.2.2
      (Effect.refund junkSnapshot) ?_ rfl
    rw [processSnapshot_undecoded demoExchange [] junkSnapshot
      (passesGuards_of_one junkSnapshot rfl (by decide) (by decide) rfl) (by decide)]
    simp

/-! ## Determinism, codec and idempotence -/

/-- The shape of the run of `processSnapshot` on an event that passes the
guard filters depends only on the memo, the amount and the asset of the
event: the same shape serves every such event and every state. -/
theorem processSnapshot_uniform {σ : Type} (ex : Exchange σ) (d m x : String) :
    (∀ (st : σ) (s : Snapshot), ex.passesGuards s → s.Data = d → s.Amount = m →
      s.Asset.AssetId = x →
      ex.processSnapshot st s = ⟨st, [Effect.decrypt d, Effect.refund s], Ret.ok⟩) ∨
    (∃ am pr, ∀ (st : σ) (s : Snapshot), ex.passesGuards s → s.Data = d → s.Amount = m →
      s.Asset.AssetId = x →
      ex.processSnapshot st s =
        ⟨st, [Effect.decrypt d, Effect.div am pr, Effect.refund s], Ret.ok⟩) ∨
    (∃ id, ∀ (st : σ) (s : Snapshot), ex.passesGuards s → s.Data = d → s.Amount = m →
      s.Asset.AssetId = x →
      ex.processSnapshot st s =
        ⟨(ex.CancelOrder st id).1, [Effect.decrypt d, Effect.cancel id],
         Ret.ofError (ex.CancelOrder st id).2⟩) ∨
    (∃ side q b am pr, ∀ (st : σ) (s : Snapshot), ex.passesGuards s → s.Data = d →
      s.Amount = m → s.Asset.AssetId = x →
      ex.processSnapshot st s =
        ⟨(ex.CreateOrder st s.OpponentId s.TraceId side q b am pr s.CreatedAt).1,
         [Effect.decrypt d, Effect.create s.OpponentId s.TraceId side q b am pr s.CreatedAt],
         Ret.ofError (ex.CreateOrder st s.OpponentId s.TraceId side q b am pr s.CreatedAt).2⟩) ∨
    (∃ side q b am pr am0, ∀ (st : σ) (s : Snapshot), ex.passesGuards s → s.Data = d →
      s.Amount = m → s.Asset.AssetId = x →
      ex.processSnapshot st s =
        ⟨(ex.CreateOrder st s.OpponentId s.TraceId side q b am pr s.CreatedAt).1,
         [Effect.decrypt d, Effect.div am0 pr,
          Effect.create s.OpponentId s.TraceId side q b am pr s.CreatedAt],
         Ret.ofError
           (ex.CreateOrder st s.OpponentId s.TraceId side q b am pr s.CreatedAt).2⟩) := by
  cases hd : ex.decryptOrderAction d with
  | none =>
    refine Or.inl (fun st s hg h1 h2 h3 => ?_)
    subst h1
    exact processSnapshot_undecoded ex st s hg hd
  | some a =>
    by_cases hA : a.A.String = x
    · refine Or.inl (fun st s hg h1 h2 h3 => ?_)
      subst h1 h3
      exact processSnapshot_selfref ex st s a hg hd hA
    · by_cases hO : a.O.String = UUID.Nil.String
      · cases hp : ((FromString a.P).RoundFloor 8).Exhausted with
        | true =>
          refine Or.inl (fun st s hg h1 h2 h3 => ?_)
          subst h1 h3
          exact processSnapshot_noprice ex st s a hg hd hA hO hp
        | false =>
          by_cases hS1 : a.S = PageSideAsk
          · cases hv : validateQuoteBasePair a.A.String x
            · refine Or.inl (fun st s hg h1 h2 h3 => ?_)
              subst h1 h3
              rw [processSnapshot_ask ex st s a hg hd hA hO hp hS1,
                placeOrder_invalid _ _ _ _ _ _ _ _ hv]
              rfl
            · refine Or.inr (Or.inr (Or.inr (Or.inl
                ⟨a.S, a.A.String, x, (FromString m).RoundFloor 8, (FromString a.P).RoundFloor 8,
                  fun st s hg h1 h2 h3 => ?_⟩)))
              subst h1 h2 h3
              rw [processSnapshot_ask ex st s a hg hd hA hO hp hS1,
                placeOrder_valid _ _ _ _ _ _ _ _ hv]
              rfl
          · by_cases hS2 : a.S = PageSideBid
            · cases hv : validateQuoteBasePair x a.A.String
              · refine Or.inr (Or.inl ⟨(FromString m).RoundFloor 8,
                  (FromString a.P).RoundFloor 8, fun st s hg h1 h2 h3 => ?_⟩)
                subst h1 h2 h3
                rw [processSnapshot_bid ex st s a hg hd hA hO hp hS2,
                  placeOrder_invalid _ _ _ _ _ _ _ _ hv]
                rfl
              · refine Or.inr (Or.inr (Or.inr (Or.inr
                  ⟨a.S, x, a.A.String,
                    (FromString m).RoundFloor 8 / (FromString a.P).RoundFloor 8,
                    (FromString a.P).RoundFloor 8, (FromString m).RoundFloor 8,
                    fun st s hg h1 h2 h3 => ?_⟩)))
                subst h1 h2 h3
                rw [processSnapshot_bid ex st s a hg hd hA hO hp hS2,
                  placeOrder_valid _ _ _ _ _ _ _ _ hv]
                rfl
            · refine Or.inl (fun st s hg h1 h2 h3 => ?_)
              subst h1 h3
              exact processSnapshot_noside ex st s a hg hd hA hO hp hS1 hS2
      · refine Or.inr (Or.inr (Or.inl ⟨a.O.String, fun st s hg h1 h2 h3 => ?_⟩))
        subst h1 h3
        exact processSnapshot_cancel ex st s a hg hd hA hO

/-- C13: deterministic intent.  Two events that pass the guard filters and
have the same memo, the same amount and the same asset id lead to the same
kind of call (refund, cancel or create) and, for a create-order, to the same
side, quote, base, price and quantity, whatever their snapshot ids, creation
times, counterparties and trace ids, and whatever the persistence states. -/
theorem processSnapshot_intent_deterministic {σ : Type} (ex : Exchange σ) (st1 st2 : σ)
    (s1 s2 : Snapshot) (hg1 : ex.passesGuards s1) (hg2 : ex.passesGuards s2)
    (hD : s1.Data = s2.Data) (hM : s1.Amount = s2.Amount)
    (hX : s1.Asset.AssetId = s2.Asset.AssetId) :
    (ex.processSnapshot st1 s1).intents = (ex.processSnapshot st2 s2).intents := by
  rcases processSnapshot_uniform ex s1.Data s1.Amount s1.Asset.AssetId with h | ⟨am, pr, h⟩ |
    ⟨id, h⟩ | ⟨side, q, b, am, pr, h⟩ | ⟨side, q, b, am, pr, am0, h⟩ <;>
  · rw [h st1 s1 hg1 rfl rfl rfl, h st2 s2 hg2 hD.symm hM.symm hX.symm]
    simp [Run.intents, Effect.intent]

/-- Witness of C13: the two sample asks differ in snapshot id, time, sender
and trace id, and both create an ask of 1.23456789 at 100.00000001 with USDT
as quote. -/
theorem processSnapshot_intent_deterministic_witness :
    demoExchange.passesGuards askSnapshot ∧ demoExchange.passesGuards askSnapshot2 ∧
      askSnapshot.TraceId ≠ askSnapshot2.TraceId ∧
      (demoExchange.processSnapshot [] askSnapshot).intents =
        (demoExchange.processSnapshot ["t1"] askSnapshot2).intents ∧
      (demoExchange.processSnapshot [] askSnapshot).intents =
        [Intent.create "ASK" USDTAssetId otherAssetId (123456789 / 100000000)
          (10000000001 / 100000000)] := by
  have hg2 : demoExchange.passesGuards askSnapshot2 :=
    ⟨by decide, by decide, by decide, passesGuards_askSnapshot.2.2.2⟩
  refine ⟨passesGuards_askSnapshot, hg2, by decide,
    processSnapshot_intent_deterministic demoExchange [] ["t1"] askSnapshot askSnapshot2
      passesGuards_askSnapshot hg2 rfl rfl rfl, ?_⟩
  rw [processSnapshot_demo_ask]
  simp only [Run.intents, List.filterMap_cons, Effect.intent, List.filterMap_nil]
  rw [roundFloor_askAmount, roundFloor_askPrice, show usdtUUID.String = USDTAssetId from by decide]

/-- C14: the codec fails closed.  `decryptOrderAction` returns no instruction
when the memo is not valid base64 and when the decoded payload does not
deserialize; otherwise it returns the deserialized record; and an
instruction it returns is always the record deserialized from the decoded
payload. -/
theorem decryptOrderAction_fails_closed {σ : Type} (ex : Exchange σ) (data : String) :
    (ex.DecodeString data = none → ex.decryptOrderAction data = none) ∧
    (∀ payload, ex.DecodeString data = some payload → ex.codec payload = none →
      ex.decryptOrderAction data = none) ∧
    (∀ payload a, ex.DecodeString data = some payload → ex.codec payload = some a →
      ex.decryptOrderAction data = some a) ∧
    (∀ a, ex.decryptOrderAction data = some a →
      ∃ payload, ex.DecodeString data = some payload ∧ ex.codec payload = some a) := by
  unfold Exchange.decryptOrderAction
  refine ⟨fun h => by rw [h], fun payload h1 h2 => by rw [h1]; simp only [h2],
    fun payload a h1 h2 => by rw [h1]; simp only [h2], fun a h => ?_⟩
  cases h1 : ex.DecodeString data with
  | none => rw [h1] at h; exact Option.noConfusion h
  | some payload =>
    rw [h1] at h
    cases h2 : ex.codec payload with
    | none => simp only [h2] at h; exact Option.noConfusion h
    | some b =>
      simp only [h2, Option.some.injEq] at h
      exact ⟨payload, rfl, by rw [h2, h]⟩

/-- Witness of C14 on the sample codec: a memo that is not base64, a payload
that does not deserialize, and the memo of the sample ask. -/
theorem decryptOrderAction_fails_closed_witness :
    demoExchange.decryptOrderAction "%%%" = none ∧
      demoExchange.decryptOrderAction "BQ==" = none ∧
      demoExchange.decryptOrderAction "AQ==" = some askAction :=
  ⟨(decryptOrderAction_fails_closed demoExchange "%%%").1 (by decide),
   (decryptOrderAction_fails_closed demoExchange "BQ==").2.1 [5] (by decide) (by decide),
   (decryptOrderAction_fails_closed demoExchange "AQ==").2.2.1 [1] askAction (by decide)
     (by decide)⟩

theorem ofError_eq_ok_iff (r : Option Error) : Ret.ofError r = Ret.ok ↔ r = none := by
  cases r <;> simp [Ret.ofError]

/-- C15: idempotent dispatch.  Two submissions of the same event, from any two
persistence states, perform the same effects with the same arguments, and
every create-order call carries the trace id of the event.  Hence, with a
create-order collaborator that is idempotent on the trace id (a second call
with the trace id of a successful one leaves the state as it is), submitting
again an event whose order was created leaves the persistence state
unchanged: no second order is created. -/
theorem processSnapshot_idempotent_dispatch {σ : Type} (ex : Exchange σ) (st st' : σ)
    (s : Snapshot) :
    (ex.processSnapshot st s).trace = (ex.processSnapshot st' s).trace ∧
    (∀ u t side q b am pr ts,
      Effect.create u t side q b am pr ts ∈ (ex.processSnapshot st s).trace → t = s.TraceId) ∧
    ((∀ x u t side q b am pr ts u' side' q' b' am' pr' ts',
        (ex.CreateOrder x u t side q b am pr ts).2 = none →
        (ex.CreateOrder (ex.CreateOrder x u t side q b am pr ts).1
          u' t side' q' b' am' pr' ts').1 = (ex.CreateOrder x u t side q b am pr ts).1) →
      (ex.processSnapshot st s).ret = Ret.ok →
      (∀ e ∈ (ex.processSnapshot st s).trace, e.isCancel = false) →
      (ex.processSnapshot (ex.processSnapshot st s).state s).state =
        (ex.processSnapshot st s).state) := by
  by_cases hg : ex.passesGuards s
  · rcases processSnapshot_uniform ex s.Data s.Amount s.Asset.AssetId with h | ⟨am, pr, h⟩ |
      ⟨id, h⟩ | ⟨side, q, b, am, pr, h⟩ | ⟨side, q, b, am, pr, am0, h⟩
    · refine ⟨by rw [h st s hg rfl rfl rfl, h st' s hg rfl rfl rfl], ?_, ?_⟩
      · rw [h st s hg rfl rfl rfl]
        simp
      · intro _ _ _
        rw [h st s hg rfl rfl rfl, h st s hg rfl rfl rfl]
    · refine ⟨by rw [h st s hg rfl rfl rfl, h st' s hg rfl rfl rfl], ?_, ?_⟩
      · rw [h st s hg rfl rfl rfl]
        simp
      · intro _ _ _
        rw [h st s hg rfl rfl rfl, h st s hg rfl rfl rfl]
    · refine ⟨by rw [h st s hg rfl rfl rfl, h st' s hg rfl rfl rfl], ?_, ?_⟩
      · rw [h st s hg rfl rfl rfl]
        simp
      · intro _ _ hnc
        rw [h st s hg rfl rfl rfl] at hnc
        have := hnc (Effect.cancel id) (by simp)
        simp [Effect.isCancel] at this
    · refine ⟨by rw [h st s hg rfl rfl rfl, h st' s hg rfl rfl rfl], ?_, ?_⟩
      · rw [h st s hg rfl rfl rfl]
        simp only [List.mem_cons, List.mem_singleton, Effect.create.injEq, false_or,
          List.not_mem_nil, or_false, reduceCtorEq]
        rintro u t side1 q1 b1 am1 pr1 ts ⟨-, rfl, -⟩
        rfl
      · intro hidem hok _
        rw [h st s hg rfl rfl rfl] at hok ⊢
        rw [h _ s hg rfl rfl rfl]
        exact hidem _ _ _ _ _ _ _ _ _ _ _ _ _ _ _ _ ((ofError_eq_ok_iff _).1 hok)
    · refine ⟨by rw [h st s hg rfl rfl rfl, h st' s hg rfl rfl rfl], ?_, ?_⟩
      · rw [h st s hg rfl rfl rfl]
        simp only [List.mem_cons, List.mem_singleton, Effect.create.injEq, false_or,
          List.not_mem_nil, or_false, reduceCtorEq]
        rintro u t side1 q1 b1 am1 pr1 ts ⟨-, rfl, -⟩
        rfl
      · intro hidem hok _
        rw [h st s hg rfl rfl rfl] at hok ⊢
        rw [h _ s hg rfl rfl rfl]
        exact hidem _ _ _ _ _ _ _ _ _ _ _ _ _ _ _ _ ((ofError_eq_ok_iff _).1 hok)
  · refine ⟨by rw [processSnapshot_ignored ex st s hg, processSnapshot_ignored ex st' s hg], ?_, ?_⟩
    · rw [processSnapshot_ignored ex st s hg]
      simp
    · intro _ _ _
      rw [processSnapshot_ignored ex st s hg, processSnapshot_ignored ex st s hg]

/-- Witness of C15: the sample exchange keeps one entry per trace id;
submitting the sample ask a second time leaves the single entry "t1". -/
theorem processSnapshot_idempotent_dispatch_witness :
    (demoExchange.processSnapshot [] askSnapshot).trace =
        (demoExchange.processSnapshot ["t1"] askSnapshot).trace ∧
      (demoExchange.processSnapshot [] askSnapshot).state = ["t1"] ∧
      (demoExchange.processSnapshot (demoExchange.processSnapshot [] askSnapshot).state
        askSnapshot).state = ["t1"] := by
  have h := processSnapshot_idempotent_dispatch demoExchange [] ["t1"] askSnapshot
  have hst : (demoExchange.processSnapshot [] askSnapshot).state = ["t1"] := by
    rw [processSnapshot_demo_ask]
  refine ⟨h.1, hst, ?_⟩
  rw [h.2.2 ?_ (by rw [processSnapshot_demo_ask]) ?_, hst]
  · intro x u t side q b am pr ts u' side' q' b' am' pr' ts' hok
    simp only [demoExchange] at hok ⊢
    by_cases hb : t = "busy"
    · simp [hb] at hok
    · by_cases hm : t ∈ x
      · simp [hb, hm]
      · simp [hb, hm]
  · rw [processSnapshot_demo_ask]
    simp [Effect.isCancel]

/-! ## The arguments of created orders -/

theorem roundFloor_le (a : Decimal) : a.RoundFloor 8 ≤ a := by
  have h10 : (0 : ℚ) < 10 ^ 8 := by norm_num
  unfold Decimal.RoundFloor
  rw [div_le_iff₀ h10]
  exact Int.floor_le _

theorem FromString_of_unread (source : String) (h : readDecimal source.toList = none) :
    FromString source = 0 := by
  unfold FromString
  rw [h]

/-- Where the arguments of a create-order call come from. -/
theorem processSnapshot_create_args {σ : Type} (ex : Exchange σ) (st : σ) (s : Snapshot)
    (u t side q b : String) (am pr : Decimal) (ts : Time)
    (h : Effect.create u t side q b am pr ts ∈ (ex.processSnapshot st s).trace) :
    ex.passesGuards s ∧
      ∃ a, ex.decryptOrderAction s.Data = some a ∧ a.A.String ≠ s.Asset.AssetId ∧
        pr = (FromString a.P).RoundFloor 8 ∧ pr.Exhausted = false ∧
        u = s.OpponentId ∧ t = s.TraceId ∧ ts = s.CreatedAt ∧
        ((side = PageSideAsk ∧ q = a.A.String ∧ b = s.Asset.AssetId ∧
            am = (FromString s.Amount).RoundFloor 8) ∨
          (side = PageSideBid ∧ q = s.Asset.AssetId ∧ b = a.A.String ∧
            am = (FromString s.Amount).RoundFloor 8 / pr)) := by
  by_cases hg : ex.passesGuards s
  · refine ⟨hg, ?_⟩
    rcases processSnapshot_cases ex st s hg with hc | ⟨a, -, -, -, hc⟩ |
      ⟨a, hd, hA, -, hp, hS, hc⟩ | ⟨a, hd, hA, -, hp, hS, hc⟩
    · rw [hc] at h
      simp at h
    · rw [hc] at h
      simp at h
    · cases hv : validateQuoteBasePair a.A.String s.Asset.AssetId
      · rw [hc, placeOrder_invalid _ _ _ _ _ _ _ _ hv] at h
        simp [Run.after] at h
      · rw [hc, placeOrder_valid _ _ _ _ _ _ _ _ hv] at h
        simp only [Run.after, Exchange.createOrder, List.singleton_append, List.mem_cons,
          List.mem_singleton, Effect.create.injEq, false_or, List.not_mem_nil, or_false,
          reduceCtorEq] at h
        obtain ⟨rfl, rfl, rfl, rfl, rfl, rfl, rfl, rfl⟩ := h
        exact ⟨a, hd, hA, rfl, hp, rfl, rfl, rfl, Or.inl ⟨hS, rfl, rfl, rfl⟩⟩
    · cases hv : validateQuoteBasePair s.Asset.AssetId a.A.String
      · rw [hc, placeOrder_invalid _ _ _ _ _ _ _ _ hv] at h
        simp [Run.after] at h
      · rw [hc, placeOrder_valid _ _ _ _ _ _ _ _ hv] at h
        simp only [Run.after, Exchange.createOrder, List.cons_append, List.nil_append,
          List.mem_cons, List.mem_singleton, Effect.create.injEq, false_or, List.not_mem_nil,
          or_false, reduceCtorEq] at h
        obtain ⟨rfl, rfl, rfl, rfl, rfl, rfl, rfl, rfl⟩ := h
        exact ⟨a, hd, hA, rfl, hp, rfl, rfl, rfl, Or.inr ⟨hS, rfl, rfl, rfl⟩⟩
  · rw [processSnapshot_ignored ex st s hg] at h
    simp at h

/-- Where the operands of the bid-side division come from. -/
theorem processSnapshot_div_args {σ : Type} (ex : Exchange σ) (st : σ) (s : Snapshot)
    (am pr : Decimal) (h : Effect.div am pr ∈ (ex.processSnapshot st s).trace) :
    ∃ a, ex.decryptOrderAction s.Data = some a ∧ a.S = PageSideBid ∧
      am = (FromString s.Amount).RoundFloor 8 ∧ pr = (FromString a.P).RoundFloor 8 ∧
      pr.Exhausted = false := by
  by_cases hg : ex.passesGuards s
  · rcases processSnapshot_cases ex st s hg with hc | ⟨a, -, -, -, hc⟩ |
      ⟨a, hd, hA, -, hp, hS, hc⟩ | ⟨a, hd, hA, -, hp, hS, hc⟩
    · rw [hc] at h
      simp at h
    · rw [hc] at h
      simp at h
    · cases hv : validateQuoteBasePair a.A.String s.Asset.AssetId
      · rw [hc, placeOrder_invalid _ _ _ _ _ _ _ _ hv] at h
        simp [Run.after] at h
      · rw [hc, placeOrder_valid _ _ _ _ _ _ _ _ hv] at h
        simp [Run.after, Exchange.createOrder] at h
    · have hmem : Effect.div am pr ∈ [Effect.decrypt s.Data,
          Effect.div ((FromString s.Amount).RoundFloor 8) ((FromString a.P).RoundFloor 8)] := by
        cases hv : validateQuoteBasePair s.Asset.AssetId a.A.String
        · rw [hc, placeOrder_invalid _ _ _ _ _ _ _ _ hv] at h
          simpa [Run.after] using h
        · rw [hc, placeOrder_valid _ _ _ _ _ _ _ _ hv] at h
          simpa [Run.after, Exchange.createOrder] using h
      simp only [List.mem_cons, List.mem_singleton, Effect.div.injEq, false_or,
        List.not_mem_nil, or_false, reduceCtorEq] at hmem
      obtain ⟨rfl, rfl⟩ := hmem
      exact ⟨a, hd, hS, rfl, rfl, hp⟩
  · rw [processSnapshot_ignored ex st s hg] at h
    simp at h

theorem roundFloor_multiple (a : Decimal) : ∃ n : ℤ, a.RoundFloor 8 = (n : ℚ) / 10 ^ 8 :=
  ⟨⌊a * 10 ^ 8⌋, rfl⟩

/-- Counterexample to C16 as stated: the sample bid (0.00000001 USDT for
Bitcoin at price 2) creates an order whose quantity 0.000000005 is not an
integer multiple of 10^-8. -/
theorem processSnapshot_bid_quantity_not_multiple :
    Effect.create "bob" "t2" "BID" USDTAssetId BitcoinAssetId (1 / 200000000) 2 2000 ∈
        (demoExchange.processSnapshot [] bidSnapshot).trace ∧
      ¬ ∃ n : ℤ, (1 / 200000000 : Decimal) = (n : ℚ) / 10 ^ 8 := by
  constructor
  · rw [processSnapshot_bid demoExchange [] bidSnapshot bidAction passesGuards_bidSnapshot
      (by decide) (by decide) (by decide) bidPrice_not_exhausted (by decide),
      placeOrder_valid _ _ _ _ _ _ _ _ (by decide)]
    show Effect.create "bob" "t2" "BID" USDTAssetId BitcoinAssetId (1 / 200000000) 2 2000 ∈
      [Effect.decrypt "Ag==",
       Effect.div ((FromString "0.00000001").RoundFloor 8) ((FromString "2").RoundFloor 8),
       Effect.create "bob" "t2" "BID" USDTAssetId bitcoinUUID.String
        ((FromString "0.00000001").RoundFloor 8 / (FromString "2").RoundFloor 8)
        ((FromString "2").RoundFloor 8) 2000]
    rw [roundFloor_bidAmount, roundFloor_two, show bitcoinUUID.String = BitcoinAssetId from by decide]
    simp
    norm_num
  · rintro ⟨n, hn⟩
    have h2 : (2 * n : ℚ) = 1 := by
      field_simp at hn
      linarith
    have h3 : (2 * n : ℤ) = 1 := by exact_mod_cast h2
    omega

/-- C16, amended: fixed precision of created orders.  In every create-order
call of `processSnapshot` the price is the instruction's price floored to 8
fractional digits, an integer multiple of 10^-8; on the ask side the
quantity is the amount floored to 8 fractional digits, an integer multiple
of 10^-8; on the bid side the quantity is the quotient of the floored amount
by the floored price, which is not rounded again. -/
theorem processSnapshot_create_precision {σ : Type} (ex : Exchange σ) (st : σ) (s : Snapshot)
    (u t side q b : String) (am pr : Decimal) (ts : Time)
    (h : Effect.create u t side q b am pr ts ∈ (ex.processSnapshot st s).trace) :
    (∃ a, ex.decryptOrderAction s.Data = some a ∧ pr = (FromString a.P).RoundFloor 8) ∧
      (∃ n : ℤ, pr = (n : ℚ) / 10 ^ 8) ∧
      (side = PageSideAsk →
        am = (FromString s.Amount).RoundFloor 8 ∧ ∃ n : ℤ, am = (n : ℚ) / 10 ^ 8) ∧
      (side = PageSideBid → am = (FromString s.Amount).RoundFloor 8 / pr) := by
  obtain ⟨-, a, hd, -, hpr, -, -, -, -, hside⟩ := processSnapshot_create_args ex st s _ _ _ _ _ _ _ _ h
  have hne : PageSideBid ≠ PageSideAsk := by decide
  refine ⟨⟨a, hd, hpr⟩, by rw [hpr]; exact roundFloor_multiple _, ?_, ?_⟩
  · intro hs
    rcases hside with ⟨-, -, -, ham⟩ | ⟨hs', -⟩
    · exact ⟨ham, by rw [ham]; exact roundFloor_multiple _⟩
    · exact absurd (hs'.symm.trans hs) hne
  · intro hs
    rcases hside with ⟨hs', -⟩ | ⟨-, -, -, ham⟩
    · exact absurd (hs.symm.trans hs') hne
    · exact ham

/-- Witness of the amended C16: the create-order call of the sample ask. -/
theorem processSnapshot_create_precision_witness :
    Effect.create "alice" "t1" "ASK" usdtUUID.String otherAssetId
        ((FromString "1.23456789012").RoundFloor 8) ((FromString "100.00000001").RoundFloor 8)
        1000 ∈ (demoExchange.processSnapshot [] askSnapshot).trace ∧
      (∃ n : ℤ, (FromString "100.00000001").RoundFloor 8 = (n : ℚ) / 10 ^ 8) ∧
      (∃ n : ℤ, (FromString "1.23456789012").RoundFloor 8 = (n : ℚ) / 10 ^ 8) := by
  have hmem : Effect.create "alice" "t1" "ASK" usdtUUID.String otherAssetId
      ((FromString "1.23456789012").RoundFloor 8) ((FromString "100.00000001").RoundFloor 8)
      1000 ∈ (demoExchange.processSnapshot [] askSnapshot).trace := by
    rw [processSnapshot_demo_ask]
    simp
  have h := processSnapshot_create_precision demoExchange [] askSnapshot _ _ _ _ _ _ _ _ hmem
  exact ⟨hmem, h.2.1, (h.2.2.1 rfl).2⟩

/-! ## Orientation of pairs, distinct assets, positive orders -/

/-- C17: tie-break between anchors.  For two distinct asset ids at most one
of the two orientations is a valid (quote, base) pair; between the two
anchors the orientation accepted is USDT as quote with Bitcoin as base, and
Bitcoin as quote with USDT as base is rejected. -/
theorem validateQuoteBasePair_tie_break :
    (∀ a b : String, a ≠ b →
      ¬ (validateQuoteBasePair a b = true ∧ validateQuoteBasePair b a = true)) ∧
    validateQuoteBasePair USDTAssetId BitcoinAssetId = true ∧
    validateQuoteBasePair BitcoinAssetId USDTAssetId = false := by
  refine ⟨?_, by decide, by decide⟩
  rintro a b hab ⟨h1, h2⟩
  rw [validate_eq_true_iff] at h1 h2
  obtain ⟨ha, hna⟩ := h1
  obtain ⟨hb, hnb⟩ := h2
  rcases ha with ha | ha <;> rcases hb with hb | hb
  · exact hab (ha.trans hb.symm)
  · exact hna ⟨ha, hb⟩
  · exact hnb ⟨hb, ha⟩
  · exact hab (ha.trans hb.symm)

/-- C18: distinct quote and base.  In every create-order call of
`processSnapshot` the quote asset and the base asset are different strings,
although `validateQuoteBasePair` alone accepts USDT with USDT and Bitcoin
with Bitcoin. -/
theorem processSnapshot_create_distinct {σ : Type} (ex : Exchange σ) (st : σ) (s : Snapshot)
    (u t side q b : String) (am pr : Decimal) (ts : Time)
    (h : Effect.create u t side q b am pr ts ∈ (ex.processSnapshot st s).trace) :
    q ≠ b ∧ validateQuoteBasePair USDTAssetId USDTAssetId = true ∧
      validateQuoteBasePair BitcoinAssetId BitcoinAssetId = true := by
  obtain ⟨-, a, -, hA, -, -, -, -, -, hside⟩ := processSnapshot_create_args ex st s _ _ _ _ _ _ _ _ h
  refine ⟨?_, by decide, by decide⟩
  rcases hside with ⟨-, rfl, rfl, -⟩ | ⟨-, rfl, rfl, -⟩
  · exact hA
  · exact fun e => hA e.symm

/-- Witness of C18: the order of the sample ask has USDT as quote and the
third asset as base. -/
theorem processSnapshot_create_distinct_witness :
    Effect.create "alice" "t1" "ASK" usdtUUID.String otherAssetId
        ((FromString "1.23456789012").RoundFloor 8) ((FromString "100.00000001").RoundFloor 8)
        1000 ∈ (demoExchange.processSnapshot [] askSnapshot).trace ∧
      usdtUUID.String ≠ otherAssetId := by
  have hmem : Effect.create "alice" "t1" "ASK" usdtUUID.String otherAssetId
      ((FromString "1.23456789012").RoundFloor 8) ((FromString "100.00000001").RoundFloor 8)
      1000 ∈ (demoExchange.processSnapshot [] askSnapshot).trace := by
    rw [processSnapshot_demo_ask]
    simp
  exact ⟨hmem, (processSnapshot_create_distinct demoExchange [] askSnapshot _ _ _ _ _ _ _ _ hmem).1⟩

/-- C19: the division is guarded.  In every run of `processSnapshot` that
reaches the bid-side division, the divisor is the instruction's price floored
to 8 digits, it is not exhausted, it is at least 10^-8 and so not zero, and
the division returns the quotient; no run panics; and when the price reads
as zero or less (an empty or unparsable string reads as zero) the division
is not reached. -/
theorem processSnapshot_division_guarded {σ : Type} (ex : Exchange σ) (st : σ) (s : Snapshot) :
    (∀ am pr, Effect.div am pr ∈ (ex.processSnapshot st s).trace →
      (∃ a, ex.decryptOrderAction s.Data = some a ∧ pr = (FromString a.P).RoundFloor 8) ∧
        pr.Exhausted = false ∧ 1 / 10 ^ 8 ≤ pr ∧ pr ≠ 0 ∧ am.Div pr = some (am / pr)) ∧
    (ex.processSnapshot st s).ret ≠ Ret.panic ∧
    (∀ a, ex.decryptOrderAction s.Data = some a → FromString a.P ≤ 0 →
      ∀ am pr, Effect.div am pr ∉ (ex.processSnapshot st s).trace) := by
  refine ⟨?_, ?_, ?_⟩
  · intro am pr h
    obtain ⟨a, hd, -, -, hpr, hp⟩ := processSnapshot_div_args ex st s am pr h
    have hge : 1 / 10 ^ 8 ≤ pr := (exhausted_eq_false_iff pr).1 hp
    have hpos : 0 < pr := lt_of_lt_of_le (by norm_num) hge
    exact ⟨⟨a, hd, hpr⟩, hp, hge, ne_of_gt hpos, div_of_not_exhausted am pr hp⟩
  · rcases processSnapshot_forms ex st s with hc | hc | ⟨am, pr, hc⟩ | ⟨id, hc⟩ |
      ⟨side, q, b, am, pr, hc⟩ | ⟨side, q, b, am, pr, am0, hc⟩ <;> rw [hc]
    · simp
    · simp
    · simp
    · exact ofError_ne_panic _
    · exact ofError_ne_panic _
    · exact ofError_ne_panic _
  · intro a hd hle am pr h
    obtain ⟨a', hd', -, -, hpr, hp⟩ := processSnapshot_div_args ex st s am pr h
    rw [hd] at hd'
    cases hd'
    have hge : 1 / 10 ^ 8 ≤ pr := (exhausted_eq_false_iff pr).1 hp
    have hle' : pr ≤ 0 := by
      rw [hpr]
      exact le_trans (roundFloor_le _) hle
    have : (0 : ℚ) < 1 / 10 ^ 8 := by norm_num
    linarith

/-- Witness of C19: the sample bid of 6 USDT at price 2 reaches the division
with divisor 2; the empty price, an unparsable price and the price "0" read
as zero, and "-1" reads as less than zero. -/
theorem processSnapshot_division_guarded_witness :
    Effect.div ((FromString "6").RoundFloor 8) ((FromString "2").RoundFloor 8) ∈
        (demoExchange.processSnapshot [] bidSnapshot6).trace ∧
      (FromString "2").RoundFloor 8 = 2 ∧
      ((FromString "2").RoundFloor 8 ≠ 0) ∧
      FromString "" = 0 ∧ FromString "abc" = 0 ∧ FromString "0" = 0 ∧ FromString "-1" ≤ 0 := by
  have hmem : Effect.div ((FromString "6").RoundFloor 8) ((FromString "2").RoundFloor 8) ∈
      (demoExchange.processSnapshot [] bidSnapshot6).trace := by
    rw [processSnapshot_bid demoExchange [] bidSnapshot6 bidAction passesGuards_bidSnapshot6
      (by decide) (by decide) (by decide) bidPrice_not_exhausted (by decide)]
    simp [Run.after, bidSnapshot6, bidAction]
  refine ⟨hmem, roundFloor_two,
    ((processSnapshot_division_guarded demoExchange [] bidSnapshot6).1 _ _ hmem).2.2.2.1,
    FromString_of_unread "" (by decide), FromString_of_unread "abc" (by decide), ?_, ?_⟩
  · rw [FromString_of_read "0" 0 0 (by decide)]
    norm_num
  · rw [FromString_of_read "-1" (-1) 0 (by decide)]
    norm_num

/-- C20: positive orders.  In every create-order call of `processSnapshot`,
on either side, the price is at least 10^-8 and the quantity is strictly
positive. -/
theorem processSnapshot_create_positive {σ : Type} (ex : Exchange σ) (st : σ) (s : Snapshot)
    (u t side q b : String) (am pr : Decimal) (ts : Time)
    (h : Effect.create u t side q b am pr ts ∈ (ex.processSnapshot st s).trace) :
    1 / 10 ^ 8 ≤ pr ∧ 0 < am := by
  obtain ⟨hg, a, -, -, -, hp, -, -, -, hside⟩ :=
    processSnapshot_create_args ex st s _ _ _ _ _ _ _ _ h
  have hge : 1 / 10 ^ 8 ≤ pr := (exhausted_eq_false_iff pr).1 hp
  have hpos : 0 < pr := lt_of_lt_of_le (by norm_num) hge
  have hamount : 0 < (FromString s.Amount).RoundFloor 8 :=
    (roundFloor_pos_iff _).2 ((exhausted_eq_false_iff _).1 hg.2.2.2)
  refine ⟨hge, ?_⟩
  rcases hside with ⟨-, -, -, ham⟩ | ⟨-, -, -, ham⟩
  · rw [ham]
    exact hamount
  · rw [ham]
    exact div_pos hamount hpos

/-- Witness of C20: the order of the sample ask has price 100.00000001 and
quantity 1.23456789. -/
theorem processSnapshot_create_positive_witness :
    Effect.create "alice" "t1" "ASK" usdtUUID.String otherAssetId
        ((FromString "1.23456789012").RoundFloor 8) ((FromString "100.00000001").RoundFloor 8)
        1000 ∈ (demoExchange.processSnapshot [] askSnapshot).trace ∧
      (1 / 10 ^ 8 ≤ (FromString "100.00000001").RoundFloor 8 ∧
        0 < (FromString "1.23456789012").RoundFloor 8) ∧
      (FromString "100.00000001").RoundFloor 8 = 10000000001 / 100000000 ∧
      (FromString "1.23456789012").RoundFloor 8 = 123456789 / 100000000 := by
  have hmem : Effect.create "alice" "t1" "ASK" usdtUUID.String otherAssetId
      ((FromString "1.23456789012").RoundFloor 8) ((FromString "100.00000001").RoundFloor 8)
      1000 ∈ (demoExchange.processSnapshot [] askSnapshot).trace := by
    rw [processSnapshot_demo_ask]
    simp
  exact ⟨hmem, processSnapshot_create_positive demoExchange [] askSnapshot _ _ _ _ _ _ _ _ hmem,
    roundFloor_askPrice, roundFloor_askAmount⟩

end OceanOne
